import Mathlib

/-!
# User service: validation, credentials and repository

A shallow embedding of `user-service/src/models/user.go`,
`user-service/src/database/postgres.go` and the handlers of
`user-service/src/controllers/userv1.go` that call them.

* Go strings are modelled by `String`, that is, as valid UTF-8 text (what
  `encoding/json` and the HTTP layer hand to the model); `len(s)` is the byte
  length `String.utf8ByteSize`.
* Go `int` / `int64` values are modelled by `Int` (only comparisons with `0` occur).
* A compiled `regexp.Regexp` is an anchoring pair around a regular expression
  over character classes; bracket expressions are parsed from the pattern text
  of the source the way `regexp/syntax` parses them.
* The store is a record of result oracles; every operation returns, next to its
  Go result, the list of statements it issued.
-/

namespace UserService

/-! ## Regular expressions (`regexp`, `regexp/syntax`) -/

/-- A bracket expression after parsing: the listed inclusive ranges, negated or not. -/
structure CharClass where
  negated : Bool
  ranges : List (Char × Char)
deriving DecidableEq, Repr

/-- Membership of a rune in one inclusive range. -/
def inRange (r : Char × Char) (c : Char) : Bool :=
  decide (r.1.toNat ≤ c.toNat) && decide (c.toNat ≤ r.2.toNat)

/-- Membership of a rune in a character class. -/
def CharClass.mem (k : CharClass) (c : Char) : Bool :=
  k.negated != k.ranges.any (fun r => inRange r c)

/-- The test `isalnum` of `regexp/syntax`: an ASCII letter or digit. -/
def isalnum (c : Char) : Bool :=
  (decide (48 ≤ c.toNat) && decide (c.toNat ≤ 57)) ||
  (decide (65 ≤ c.toNat) && decide (c.toNat ≤ 90)) ||
  (decide (97 ≤ c.toNat) && decide (c.toNat ≤ 122))

/-- `parseClassChar`: one rune of a bracket expression.  A backslash followed by
an ASCII non-word character denotes that character; the escapes that start with
a letter or digit do not occur in the patterns of this program and are refused. -/
def parseClassChar : List Char → Option (Char × List Char)
  | [] => none
  | '\\' :: c :: rest => if c.toNat < 128 && !isalnum c then some (c, rest) else none
  | '\\' :: [] => none
  | c :: rest => some (c, rest)

/-- `parseClassRange`: a single rune, or a range `lo-hi` when a hyphen follows
that is not the last character before the closing bracket. -/
def parseClassRange (t : List Char) : Option ((Char × Char) × List Char) :=
  match parseClassChar t with
  | none => none
  | some (lo, t1) =>
    match t1 with
    | '-' :: c :: t2 =>
      if c = ']' then some ((lo, lo), t1)
      else
        match parseClassChar (c :: t2) with
        | none => none
        | some (hi, t3) => if hi.toNat < lo.toNat then none else some ((lo, hi), t3)
    | _ => some ((lo, lo), t1)

/-- The loop of `parseClass`: items up to the closing bracket, which is literal
when it is the first character.  POSIX `[:name:]` groups are refused. -/
def parseClassItems : Nat → Bool → List Char → Option (List (Char × Char) × List Char)
  | 0, _, _ => none
  | fuel + 1, first, t =>
    match t, first with
    | ']' :: rest, false => some ([], rest)
    | '[' :: ':' :: _ :: _, _ => none
    | _, _ =>
      match parseClassRange t with
      | none => none
      | some (r, t1) =>
        match parseClassItems fuel false t1 with
        | none => none
        | some (rs, rest) => some (r :: rs, rest)

/-- `parseClass`: a bracket expression, with a leading `^` for negation. -/
def parseClass : List Char → Option (CharClass × List Char)
  | '[' :: '^' :: t =>
    match parseClassItems (t.length + 1) true t with
    | none => none
    | some (rs, rest) => some (⟨true, rs⟩, rest)
  | '[' :: t =>
    match parseClassItems (t.length + 1) true t with
    | none => none
    | some (rs, rest) => some (⟨false, rs⟩, rest)
  | _ => none

/-- Regular expressions over character classes. -/
inductive Regex where
  | nothing : Regex
  | empty : Regex
  | cls : CharClass → Regex
  | cat : Regex → Regex → Regex
  | alt : Regex → Regex → Regex
  | star : Regex → Regex
deriving DecidableEq, Repr

namespace Regex

/-- Whether the expression accepts the empty string. -/
def nullable : Regex → Bool
  | nothing => false
  | empty => true
  | cls _ => false
  | cat a b => a.nullable && b.nullable
  | alt a b => a.nullable || b.nullable
  | star _ => true

/-- Brzozowski derivative with respect to one rune. -/
def deriv : Regex → Char → Regex
  | nothing, _ => nothing
  | empty, _ => nothing
  | cls k, c => if k.mem c then empty else nothing
  | cat a b, c =>
    if a.nullable then alt (cat (a.deriv c) b) (b.deriv c) else cat (a.deriv c) b
  | alt a b, c => alt (a.deriv c) (b.deriv c)
  | star a, c => cat (a.deriv c) (star a)

/-- Whether the whole input is accepted. -/
def accepts : Regex → List Char → Bool
  | r, [] => r.nullable
  | r, c :: cs => (r.deriv c).accepts cs

/-- The single rune `c`. -/
def char (c : Char) : Regex := cls ⟨false, [(c, c)]⟩

/-- The literal text `cs`. -/
def lit : List Char → Regex
  | [] => empty
  | c :: cs => cat (char c) (lit cs)

/-- The quantifier `?`. -/
def opt (r : Regex) : Regex := alt r empty

/-- The quantifier `{n}`. -/
def rep : Nat → Regex → Regex
  | 0, _ => empty
  | n + 1, r => cat r (rep n r)

/-- Up to `n` repetitions. -/
def upTo : Nat → Regex → Regex
  | 0, _ => empty
  | n + 1, r => opt (cat r (upTo n r))

/-- The quantifier `{lo,hi}`. -/
def repRange (lo hi : Nat) (r : Regex) : Regex := cat (rep lo r) (upTo (hi - lo) r)

/-- Any run of runes, newline included: what surrounds an unanchored match. -/
def anyStar : Regex := star (cls ⟨true, []⟩)

/-- The set of rune sequences a regular expression denotes. -/
def lang : Regex → Language Char
  | nothing => 0
  | empty => 1
  | cls k => {w | ∃ c, w = [c] ∧ k.mem c = true}
  | cat a b => a.lang * b.lang
  | alt a b => a.lang + b.lang
  | star a => KStar.kstar a.lang

end Regex

/-- A compiled pattern: the body and whether it is anchored by a leading `^`
and by a trailing `$` (without the `m` flag these are the two ends of the text). -/
structure Regexp where
  bol : Bool
  body : Regex
  eol : Bool
deriving DecidableEq, Repr

/-- `(*Regexp).MatchString`: whether some substring of the text matches. -/
def Regexp.MatchString (re : Regexp) (s : String) : Bool :=
  (Regex.cat (if re.bol then Regex.empty else Regex.anyStar)
    (Regex.cat re.body (if re.eol then Regex.empty else Regex.anyStar))).accepts s.toList

/-- `regexp.MustCompile` of a pattern that is exactly one bracket expression.
A pattern outside that form compiles to the expression matching nothing. -/
def compileClass (pattern : String) : Regexp :=
  match parseClass pattern.toList with
  | some (k, []) => ⟨false, Regex.cls k, false⟩
  | _ => ⟨false, Regex.nothing, false⟩

/-- The Perl class `\d`. -/
def perl_d : CharClass := ⟨false, [('0', '9')]⟩

/-- The Perl class `\s`: tab, newline, form feed, carriage return, space. -/
def perl_s : CharClass := ⟨false, [('\t', '\n'), ('\x0c', '\r'), (' ', ' ')]⟩

/-! ## `models/user.go`: field validation -/

/-- `strings.Split(s, sep)` for a separator of one character: the pieces between
successive occurrences, so always one more piece than there are occurrences. -/
def Split (sep : Char) : List Char → List (List Char)
  | [] => [[]]
  | c :: cs =>
    if c = sep then [] :: Split sep cs
    else
      match Split sep cs with
      | [] => [[c]]
      | p :: ps => (c :: p) :: ps

/-- `validateEmail`: splitting on `@` gives exactly two parts. -/
def validateEmail (emailAddress : String) : Bool :=
  (Split '@' emailAddress.toList).length == 2

/-- `US_PHONE_REGEX`, the pattern `^\(\d{3}\) \d{3}-\d{4}(\s?x\d{1,5})?$`. -/
def US_PHONE_REGEX : Regexp :=
  ⟨true,
   Regex.cat (Regex.char '(')
    (Regex.cat (Regex.rep 3 (Regex.cls perl_d))
    (Regex.cat (Regex.char ')')
    (Regex.cat (Regex.char ' ')
    (Regex.cat (Regex.rep 3 (Regex.cls perl_d))
    (Regex.cat (Regex.char '-')
    (Regex.cat (Regex.rep 4 (Regex.cls perl_d))
      (Regex.opt
        (Regex.cat (Regex.opt (Regex.cls perl_s))
        (Regex.cat (Regex.char 'x')
          (Regex.repRange 1 5 (Regex.cls perl_d)))))))))))
   , true⟩

/-- `validateTelephone`: the US pattern matches. -/
def validateTelephone (phone : String) : Bool :=
  if US_PHONE_REGEX.MatchString phone then true else false

/-- `USERNAME_REGEX`, the pattern `[^a-zA-Z0-9]`. -/
def USERNAME_REGEX : Regexp := compileClass "[^a-zA-Z0-9]"

/-- `validateUsername`: 5 to 25 bytes and no rune outside the alphanumerics. -/
def validateUsername (username : String) : Bool :=
  if username.utf8ByteSize ≥ 5 && username.utf8ByteSize ≤ 25 then
    if !USERNAME_REGEX.MatchString username then true else false
  else false

/-- `PASS_HAS_UPPERCASE`. -/
def PASS_HAS_UPPERCASE : Regexp := compileClass "[A-Z]"
/-- `PASS_HAS_LOWERCASE`. -/
def PASS_HAS_LOWERCASE : Regexp := compileClass "[a-z]"
/-- `PASS_HAS_NUMBER`. -/
def PASS_HAS_NUMBER : Regexp := compileClass "[0-9]"

/-- `PASS_SPECIAL_CHARS`: the text of the source constant, backslashes included. -/
def PASS_SPECIAL_CHARS : String := "!@#$%&?+.,\\*\\^-_=<>\\[\\]\\(\\)\\\x7b\\\x7d"

/-- `PASS_HAS_SPECIAL`, compiled from `fmt.Sprintf("[%s]", PASS_SPECIAL_CHARS)`. -/
def PASS_HAS_SPECIAL : Regexp := compileClass ("[" ++ PASS_SPECIAL_CHARS ++ "]")

/-- `PASS_HAS_ILLEGAL`, compiled from `fmt.Sprintf("[^a-zA-Z0-9%s]", PASS_SPECIAL_CHARS)`. -/
def PASS_HAS_ILLEGAL : Regexp := compileClass ("[^a-zA-Z0-9" ++ PASS_SPECIAL_CHARS ++ "]")

/-- `ValidatePassword`: the six checks of the source, in its order. -/
def ValidatePassword (password : String) : Bool :=
  if password.utf8ByteSize < 8 || password.utf8ByteSize > 25 then false
  else if !PASS_HAS_UPPERCASE.MatchString password then false
  else if !PASS_HAS_LOWERCASE.MatchString password then false
  else if !PASS_HAS_NUMBER.MatchString password then false
  else if !PASS_HAS_SPECIAL.MatchString password then false
  else if PASS_HAS_ILLEGAL.MatchString password then false
  else true

/-! ## Errors, the store and the credential primitives -/

/-- Go `error` values that occur: the two sentinels compared by identity, a value
made by `errors.New` in this program, and a value made outside it (driver,
`database/sql`, `bcrypt`). -/
inductive GoError where
  | ErrNoRows : GoError
  | ErrDuplicateKey : GoError
  | New : String → GoError
  | Foreign : String → GoError
deriving DecidableEq, Repr

/-- The method `Error()`: the message of an error value. -/
def GoError.Error : GoError → String
  | GoError.ErrNoRows => "sql: no rows in result set"
  | GoError.ErrDuplicateKey => "database.postgres.duplicatekey"
  | GoError.New text => text
  | GoError.Foreign text => text

/-- A value bound to a statement placeholder. -/
inductive Param where
  | int : Int → Param
  | str : String → Param
deriving DecidableEq, Repr

/-- One statement handed to the store together with its bound values. -/
structure Call where
  stmt : String
  args : List Param
deriving DecidableEq, Repr

/-- `UserModel`. -/
structure UserModel where
  ID : Int
  Username : String
  Password : String
  FirstName : String
  MiddleName : String
  LastName : String
  Email : String
  Telephone : String
deriving DecidableEq, Repr

/-- One row of the `SELECT` of `GetUsers`, as `rows.Scan` reads it. -/
structure UserRow where
  ID : Int
  Username : String
  FirstName : String
  MiddleName : String
  LastName : String
  Email : String
  Telephone : String
deriving DecidableEq, Repr

/-- The store behind `PostGresDB.PgDbSession`, as the answers it gives:
`QueryRow(..).Scan(&id)` yields the scanned id or an error, `Exec(..)` followed
by `RowsAffected()` yields the affected count or an error, `Query(..)` yields
rows, each of which scans or fails to scan. -/
structure PostGresDB where
  QueryRow : String → List Param → Except GoError Int
  Exec : String → List Param → Except GoError Int
  Query : String → List Param → Except GoError (List (Except GoError UserRow))

/-- The library functions `hashPassword` and `CheckPassword` call:
`bcrypt.GenerateFromPassword` (with the salt it draws), `bcrypt.CompareHashAndPassword`
(whether it returns nil) and the two directions of `base64.URLEncoding`. -/
structure Crypto where
  GenerateFromPassword : String → Except GoError (List Nat)
  CompareHashAndPassword : List Nat → String → Bool
  EncodeToString : List Nat → String
  DecodeString : String → List Nat

/-- `ErrDuplicateKey`. -/
def ErrDuplicateKey : GoError := GoError.ErrDuplicateKey

/-- The literal text that opens `duplicateKeyErrRegex`. -/
def duplicateKeyPrefix : String := "pq: duplicate key value violates unique constraint \""

/-- `duplicateKeyErrRegex`, the pattern
`pq: duplicate key value violates unique constraint "([^"]*)"`. -/
def duplicateKeyErrRegex : Regexp :=
  ⟨false,
   Regex.cat (Regex.lit duplicateKeyPrefix.toList)
    (Regex.cat (Regex.star (Regex.cls ⟨true, [('"', '"')]⟩)) (Regex.char '"')),
   false⟩

/-- `DuplicateKeyError`. -/
def DuplicateKeyError (err : GoError) : Bool :=
  duplicateKeyErrRegex.MatchString err.Error

/-- `hashPassword`: the encoded hash and the error, as the Go pair. -/
def hashPassword (c : Crypto) (password : String) : String × Option GoError :=
  match c.GenerateFromPassword password with
  | Except.error err => ("", some err)
  | Except.ok passwordHash => (c.EncodeToString passwordHash, none)

/-- `CheckPassword`. -/
def CheckPassword (c : Crypto) (hashedPassword password : String) : Bool :=
  c.CompareHashAndPassword (c.DecodeString hashedPassword) password

/-- The message of `handlePassword` for a password that fails the policy. -/
def passwordPolicyMessage : String :=
  "UserModel failed validation:\n\t- Password must be between 8 and 25 characters, " ++
  "contain upper and lower case, at least one number, and at least one symbol from " ++
  PASS_SPECIAL_CHARS

/-- `handlePassword`: the receiver after the call and the returned error. -/
def handlePassword (c : Crypto) (user : UserModel) : UserModel × Option GoError :=
  if !ValidatePassword user.Password then
    (user, some (GoError.New passwordPolicyMessage))
  else
    match hashPassword c user.Password with
    | (encoded, some _) =>
      ({ user with Password := encoded }, some (GoError.New "failed to Encode Password"))
    | (encoded, none) => ({ user with Password := encoded }, none)

/-- `UserModel.Validate`. -/
def Validate (user : UserModel) : List String :=
  let errs : List String := []
  let errs := if user.FirstName = "" then errs ++ ["FirstName is not specified!"] else errs
  let errs := if user.LastName = "" then errs ++ ["LastName is not specified!"] else errs
  let errs :=
    if user.Email = "" then errs ++ ["Email is not specified!"]
    else if !validateEmail user.Email then errs ++ ["Invalid Email specified!"]
    else errs
  let errs :=
    if user.Telephone = "" then errs ++ ["Telephone is not specified!"]
    else if !validateTelephone user.Telephone then
      errs ++ ["Invalid Telephone specified! Accepts (###) ###-####[[ ]x#####]"]
    else errs
  let errs :=
    if user.Username = "" then errs ++ ["Username is not specified!"]
    else if !validateUsername user.Username then
      errs ++ ["Invalid Username: must be between 5 and 25 characters and be only alphanumeric"]
    else errs
  errs

/-- The error `Create` and `Update` build from a non-empty list of messages. -/
def validationError (valErrors : List String) : GoError :=
  GoError.New ("UserModel failed validation:\n\t- " ++ "\n\t- ".intercalate valErrors)

/-- What a method with a `*UserModel` receiver leaves behind: the returned
error (`none` for nil), the receiver afterwards, the statements issued. -/
structure Outcome where
  err : Option GoError
  user : UserModel
  calls : List Call
deriving DecidableEq, Repr

/-- The statement of `Create`. -/
def insertStmt : String :=
  "INSERT INTO users (username, password_hash, firstname, middlename, lastname, email, telephone)\n\t\tVALUES($1, $2, $3, $4, $5, $6, $7) RETURNING id"

/-- The values `Create` binds to the seven placeholders of its statement. -/
def insertArgs (user : UserModel) : List Param :=
  [Param.str user.Username, Param.str user.Password, Param.str user.FirstName,
    Param.str user.MiddleName, Param.str user.LastName, Param.str user.Email,
    Param.str user.Telephone]

/-- `UserModel.Create`. -/
def Create (c : Crypto) (db : PostGresDB) (user : UserModel) : Outcome :=
  if user.ID ≠ 0 then
    ⟨some (GoError.New "ID must be null when creating a User"), user, []⟩
  else
    let valErrors := Validate user
    if valErrors.length > 0 then ⟨some (validationError valErrors), user, []⟩
    else
      match handlePassword c user with
      | (user, some err) => ⟨some err, user, []⟩
      | (user, none) =>
        match db.QueryRow insertStmt (insertArgs user) with
        | Except.error err =>
          if DuplicateKeyError err then
            ⟨some ErrDuplicateKey, user, [⟨insertStmt, insertArgs user⟩]⟩
          else ⟨some err, user, [⟨insertStmt, insertArgs user⟩]⟩
        | Except.ok id => ⟨none, { user with ID := id }, [⟨insertStmt, insertArgs user⟩]⟩

/-- The statement of `Delete`. -/
def deleteStmt : String := "DELETE FROM users WHERE id = $1"

/-- `UserModel.Delete`. -/
def Delete (db : PostGresDB) (user : UserModel) : Outcome :=
  if user.ID = 0 then ⟨some GoError.ErrNoRows, user, []⟩
  else
    match db.Exec deleteStmt [Param.int user.ID] with
    | Except.error err => ⟨some err, user, [⟨deleteStmt, [Param.int user.ID]⟩]⟩
    | Except.ok rows =>
      if rows = 0 then ⟨some GoError.ErrNoRows, user, [⟨deleteStmt, [Param.int user.ID]⟩]⟩
      else ⟨none, user, [⟨deleteStmt, [Param.int user.ID]⟩]⟩

/-- The opening of the statement of `Update`. -/
def updateStmtBase : String :=
  "UPDATE users SET username = $2, firstname = $3, middlename = $4, lastname = $5, email = $6, telephone = $7"

/-- The tail of `Update` from `Exec` on: the store's answer turned into the result. -/
def updateExec (db : PostGresDB) (user : UserModel) (updateStmt : String) (args : List Param) :
    Outcome :=
  match db.Exec updateStmt args with
  | Except.error err => ⟨some err, user, [⟨updateStmt, args⟩]⟩
  | Except.ok rows =>
    if rows = 0 then ⟨some GoError.ErrNoRows, user, [⟨updateStmt, args⟩]⟩
    else ⟨none, user, [⟨updateStmt, args⟩]⟩

/-- The part of `Update` after the password step: the `WHERE` clause is appended
and the second test of `user.Password` chooses between eight and seven bound values. -/
def updateSend (db : PostGresDB) (user : UserModel) (updateStmt : String) : Outcome :=
  let updateStmt := updateStmt ++ " WHERE id = $1"
  if user.Password ≠ "" then
    updateExec db user updateStmt
      [Param.int user.ID, Param.str user.Username, Param.str user.FirstName,
        Param.str user.MiddleName, Param.str user.LastName, Param.str user.Email,
        Param.str user.Telephone, Param.str user.Password]
  else
    updateExec db user updateStmt
      [Param.int user.ID, Param.str user.Username, Param.str user.FirstName,
        Param.str user.MiddleName, Param.str user.LastName, Param.str user.Email,
        Param.str user.Telephone]

/-- `UserModel.Update`. -/
def Update (c : Crypto) (db : PostGresDB) (user : UserModel) : Outcome :=
  if user.ID = 0 then ⟨some GoError.ErrNoRows, user, []⟩
  else
    let valErrors := Validate user
    if valErrors.length > 0 then ⟨some (validationError valErrors), user, []⟩
    else
      let updateStmt := updateStmtBase
      if user.Password ≠ "" then
        match handlePassword c user with
        | (user, some err) =>
          ⟨some (GoError.New ("Bad Password: " ++ user.Password ++ ":: " ++ err.Error)), user, []⟩
        | (user, none) => updateSend db user (updateStmt ++ ", password_hash = $8")
      else updateSend db user updateStmt

/-- `USER_GET_FIELDLIST`. -/
def USER_GET_FIELDLIST : String :=
  "id, username, firstname, middlename, lastname, email, telephone"

/-- What `GetUsers` returns, and the statements it issued. -/
structure UsersOutcome where
  users : List UserModel
  err : Option GoError
  calls : List Call
deriving DecidableEq, Repr

/-- The loop over `rows.Next()`: every row is scanned into a fresh `UserModel`
and appended; the first scan error ends the loop with the users read so far. -/
def scanRows : List (Except GoError UserRow) → List UserModel → List UserModel × Option GoError
  | [], users => (users, none)
  | Except.error err :: _, users => (users, some err)
  | Except.ok r :: rest, users =>
    scanRows rest
      (users ++ [⟨r.ID, r.Username, "", r.FirstName, r.MiddleName, r.LastName, r.Email,
        r.Telephone⟩])

/-- The statement and bound values `GetUsers` builds for an accepted field. -/
def buildSelect (field value : String) (limit offset : Int) : String × List Param :=
  let params : List Param := []
  let selectStmt := "SELECT " ++ USER_GET_FIELDLIST ++ " FROM users"
  if field ≠ "all" then
    let params := params ++ [Param.str value]
    let selectStmt := selectStmt ++ (" WHERE " ++ field ++ " = $1 ")
    if offset > 0 then (selectStmt ++ " LIMIT $2", params ++ [Param.int limit])
    else if limit > 0 then
      (selectStmt ++ " LIMIT $2 OFFSET $3", params ++ [Param.int limit] ++ [Param.int offset])
    else (selectStmt, params)
  else
    if offset > 0 then (selectStmt ++ " LIMIT $1", params ++ [Param.int limit])
    else if limit > 0 then
      (selectStmt ++ " LIMIT $1 OFFSET $2", params ++ [Param.int limit] ++ [Param.int offset])
    else (selectStmt, params)

/-- `GetUsers`. -/
def GetUsers (db : PostGresDB) (field value : String) (limit offset : Int) : UsersOutcome :=
  if field ≠ "id" && field ≠ "username" && field ≠ "firstname" && field ≠ "middlename" &&
      field ≠ "lastname" && field ≠ "email" && field ≠ "telephone" && field ≠ "all" then
    ⟨[], some (GoError.New ("Unsupported search field |" ++ field ++ "|")), []⟩
  else
    match buildSelect field value limit offset with
    | (selectStmt, params) =>
      match db.Query selectStmt params with
      | Except.error err => ⟨[], some err, [⟨selectStmt, params⟩]⟩
      | Except.ok rows =>
        match scanRows rows [] with
        | (users, err) => ⟨users, err, [⟨selectStmt, params⟩]⟩

/-- The error message `UpdateUser` writes to the client for what `Update`
returned: `none` on success, the not-found text for `sql.ErrNoRows`, and
otherwise `err.Error()` itself. -/
def UpdateUserErrorMessage (c : Crypto) (db : PostGresDB) (user : UserModel) : Option String :=
  match (Update c db user).err with
  | none => none
  | some GoError.ErrNoRows => some ("no user with id " ++ toString user.ID ++ " found")
  | some err => some err.Error

/-! ## `controllers/userv1.go`: reading one user -/

/-- The decimal value of a non-empty run of ASCII digits, the loop of `strconv.Atoi`. -/
def parseDigits : List Char → Nat → Option Nat
  | [], n => some n
  | ch :: rest, n =>
    if 48 ≤ ch.toNat ∧ ch.toNat ≤ 57 then parseDigits rest (n * 10 + (ch.toNat - 48)) else none

/-- `strconv.Atoi` on a 64-bit `int`: an optional sign, at least one digit, only
digits, and a value between `-2^63` and `2^63 - 1`; `none` stands for a
returned error. -/
def Atoi (s : String) : Option Int :=
  match s.toList with
  | [] => none
  | '-' :: [] => none
  | '+' :: [] => none
  | '-' :: ds =>
    match parseDigits ds 0 with
    | some n => if n ≤ 2 ^ 63 then some (-(n : Int)) else none
    | none => none
  | '+' :: ds =>
    match parseDigits ds 0 with
    | some n => if n < 2 ^ 63 then some (n : Int) else none
    | none => none
  | ds =>
    match parseDigits ds 0 with
    | some n => if n < 2 ^ 63 then some (n : Int) else none
    | none => none

/-- How a handler ends: an error message written by `errorResponse`, a user
written by `jsonResponse`, each with its status code, or a run-time panic. -/
inductive HandlerResult where
  | errorResponse : Nat → String → HandlerResult
  | userResponse : Nat → UserModel → HandlerResult
  | panic : String → HandlerResult
deriving DecidableEq, Repr

/-- `UserControllerV1.GetUserById`, given the `id` variable of the route: the
text must pass `strconv.Atoi`, the users are read with `GetUsers`, and on a nil
error the element `users[0]` is written, which panics on an empty slice. -/
def GetUserById (db : PostGresDB) (idVal : String) : HandlerResult :=
  match Atoi idVal with
  | none => HandlerResult.errorResponse 400 ("Invalid ID " ++ idVal)
  | some _ =>
    match GetUsers db "id" idVal 1 0 with
    | ⟨_, some err, _⟩ => HandlerResult.errorResponse 500 err.Error
    | ⟨users, none, _⟩ =>
      match users with
      | [] => HandlerResult.panic "runtime error: index out of range [0] with length 0"
      | user :: _ => HandlerResult.userResponse 200 user

/-! ## The specification's reading of `Validate`, and sample inputs -/

/-- The five field rules in the order the specification walks them, each with
whether it holds and the message reported when it does not. -/
def fieldRules (user : UserModel) : List (Bool × String) :=
  [(user.FirstName != "", "FirstName is not specified!"),
   (user.LastName != "", "LastName is not specified!"),
   (validateEmail user.Email,
     if user.Email = "" then "Email is not specified!" else "Invalid Email specified!"),
   (validateTelephone user.Telephone,
     if user.Telephone = "" then "Telephone is not specified!"
     else "Invalid Telephone specified! Accepts (###) ###-####[[ ]x#####]"),
   (validateUsername user.Username,
     if user.Username = "" then "Username is not specified!"
     else "Invalid Username: must be between 5 and 25 characters and be only alphanumeric")]

/-- The specification's `validate`: walk the rules in order and report the
message of each rule that is violated. -/
def ValidateSpec (user : UserModel) : List String :=
  (fieldRules user).filterMap (fun rule => if rule.1 then none else some rule.2)

/-- A record that passes `Validate` and whose password passes `ValidatePassword`. -/
def sampleUser : UserModel :=
  ⟨0, "johnny005", "goodPass034!!", "John", "", "Doe", "bob@bob.win", "(555) 555-5555"⟩

/-- Credential primitives that always succeed, with a fixed sixty-byte hash. -/
def sampleCrypto : Crypto :=
  ⟨fun _ => Except.ok (List.replicate 60 36), fun _ _ => true,
   fun h => String.mk (h.map Char.ofNat), fun s => s.toList.map Char.toNat⟩

/-- A store that answers every `QueryRow` and every `Exec` with the given
result and every `Query` with no rows. -/
def sampleStore (answer : Except GoError Int) : PostGresDB :=
  ⟨fun _ _ => answer, fun _ _ => answer, fun _ _ => Except.ok []⟩

/-- A duplicate-key error in the wording of a driver other than `lib/pq`. -/
def otherDriverError : GoError :=
  GoError.Foreign
    "ERROR: duplicate key value violates unique constraint \"users_email_key\" (SQLSTATE 23505)"

/-- The special characters the compiled classes accept: the listed ones
without the hyphen. -/
def acceptedSpecials : List Char :=
  ['!', '@', '#', '$', '%', '&', '?', '+', '.', ',', '*', '^', '_', '=', '<', '>', '[', ']',
   '(', ')', '{', '}']

/-! ## The specification's telephone form -/

/-- The characters of the Perl class `\s`: tab, newline, form feed, carriage
return and space. -/
def perlWhitespace : List Char := ['\t', '\n', '\x0c', '\r', ' ']

/-- The telephone form of the specification, with `gap` the characters allowed
between the number and the `x` of the extension: an opening parenthesis, three
digits, a closing parenthesis, a space, three digits, a hyphen, four digits,
and then nothing or an extension made of at most one character of `gap`, the
letter `x` and one to five digits. -/
def TelephoneForm (gap : List Char) (s : List Char) : Prop :=
  ∃ area exch line ext : List Char,
    s = '(' :: (area ++ ')' :: ' ' :: (exch ++ '-' :: (line ++ ext))) ∧
    (area.length = 3 ∧ ∀ c ∈ area, inRange ('0', '9') c = true) ∧
    (exch.length = 3 ∧ ∀ c ∈ exch, inRange ('0', '9') c = true) ∧
    (line.length = 4 ∧ ∀ c ∈ line, inRange ('0', '9') c = true) ∧
    (ext = [] ∨
      ∃ sp digits : List Char, ext = sp ++ 'x' :: digits ∧
        (sp = [] ∨ ∃ w ∈ gap, sp = [w]) ∧
        (1 ≤ digits.length ∧ digits.length ≤ 5) ∧ ∀ c ∈ digits, inRange ('0', '9') c = true)

/-! ## Theorems -/

set_option maxRecDepth 100000

/-! ### The language of a regular expression and the correctness of `accepts` -/

namespace Regex

theorem mem_lang_cls (k : CharClass) (w : List Char) :
    w ∈ (cls k).lang ↔ ∃ c, w = [c] ∧ k.mem c = true := Iff.rfl

theorem nullable_iff (r : Regex) : r.nullable = true ↔ [] ∈ r.lang := by
  induction r with
  | nothing => simp [nullable, lang, Language.not_mem_zero]
  | empty => simp [nullable, lang, Language.mem_one]
  | cls k => simp [nullable, mem_lang_cls]
  | cat a b iha ihb =>
    simp only [nullable, lang, Bool.and_eq_true, iha, ihb, Language.mem_mul]
    constructor
    · rintro ⟨h1, h2⟩
      exact ⟨[], h1, [], h2, rfl⟩
    · rintro ⟨x, hx, y, hy, hxy⟩
      obtain ⟨rfl, rfl⟩ := List.append_eq_nil.mp hxy
      exact ⟨hx, hy⟩
  | alt a b iha ihb => simp [nullable, lang, iha, ihb, Language.mem_add]
  | star a _ => simp [nullable, lang, Language.nil_mem_kstar]

theorem cons_mem_kstar (l : Language Char) (c : Char) (w : List Char) :
    c :: w ∈ KStar.kstar l ↔ ∃ u v, w = u ++ v ∧ c :: u ∈ l ∧ v ∈ KStar.kstar l := by
  constructor
  · intro h
    obtain ⟨S, hS, hall⟩ := Language.mem_kstar_iff_exists_nonempty.mp h
    cases S with
    | nil => simp at hS
    | cons y S =>
      have hy := hall y (List.mem_cons_self _ _)
      cases y with
      | nil => exact absurd rfl hy.2
      | cons d u =>
        simp only [List.flatten_cons, List.cons_append, List.cons.injEq] at hS
        obtain ⟨rfl, rfl⟩ := hS
        exact ⟨u, S.flatten, rfl, hy.1,
          Language.join_mem_kstar fun z hz => (hall z (List.mem_cons_of_mem _ hz)).1⟩
  · rintro ⟨u, v, rfl, hu, hv⟩
    rw [← Language.one_add_self_mul_kstar_eq_kstar, Language.mem_add]
    exact Or.inr (Language.append_mem_mul hu hv)

theorem deriv_iff (r : Regex) (c : Char) (w : List Char) :
    w ∈ (r.deriv c).lang ↔ c :: w ∈ r.lang := by
  induction r generalizing w with
  | nothing => simp [deriv, lang, Language.not_mem_zero]
  | empty => simp [deriv, lang, Language.not_mem_zero, Language.mem_one]
  | cls k =>
    rw [mem_lang_cls]
    by_cases hk : k.mem c = true
    · simp only [deriv, hk, if_true, lang, Language.mem_one, List.cons.injEq]
      constructor
      · rintro rfl
        exact ⟨c, ⟨rfl, rfl⟩, hk⟩
      · rintro ⟨d, ⟨_, h⟩, _⟩
        exact h
    · simp [deriv, lang, hk, Language.not_mem_zero]
  | cat a b iha ihb =>
    have key : c :: w ∈ a.lang * b.lang ↔
        (∃ u v, w = u ++ v ∧ c :: u ∈ a.lang ∧ v ∈ b.lang) ∨ ([] ∈ a.lang ∧ c :: w ∈ b.lang) := by
      rw [Language.mem_mul]
      constructor
      · rintro ⟨x, hx, y, hy, hxy⟩
        cases x with
        | nil => exact Or.inr ⟨hx, by simpa using hxy ▸ hy⟩
        | cons d u =>
          simp only [List.cons_append, List.cons.injEq] at hxy
          obtain ⟨rfl, rfl⟩ := hxy
          exact Or.inl ⟨u, y, rfl, hx, hy⟩
      · rintro (⟨u, v, rfl, hu, hv⟩ | ⟨h1, h2⟩)
        · exact ⟨c :: u, hu, v, hv, rfl⟩
        · exact ⟨[], h1, c :: w, h2, rfl⟩
    have hcat : w ∈ ((a.deriv c).cat b).lang ↔ ∃ u v, w = u ++ v ∧ c :: u ∈ a.lang ∧ v ∈ b.lang := by
      simp only [lang, Language.mem_mul]
      constructor
      · rintro ⟨x, hx, y, hy, rfl⟩
        exact ⟨x, y, rfl, (iha x).mp hx, hy⟩
      · rintro ⟨u, v, rfl, hu, hv⟩
        exact ⟨u, (iha u).mpr hu, v, hv, rfl⟩
    by_cases hn : a.nullable = true
    · have hnil := (nullable_iff a).mp hn
      simp only [deriv, hn, if_true]
      show w ∈ ((a.deriv c).cat b).lang + (b.deriv c).lang ↔ c :: w ∈ a.lang * b.lang
      rw [Language.mem_add, hcat, ihb, key]
      simp [hnil]
    · have hnil : [] ∉ a.lang := fun h => hn ((nullable_iff a).mpr h)
      simp only [deriv, hn]
      show w ∈ ((a.deriv c).cat b).lang ↔ c :: w ∈ a.lang * b.lang
      rw [hcat, key]
      simp [hnil]
  | alt a b iha ihb => simp [deriv, lang, Language.mem_add, iha, ihb]
  | star a iha =>
    show w ∈ (a.deriv c).lang * KStar.kstar a.lang ↔ c :: w ∈ KStar.kstar a.lang
    rw [cons_mem_kstar, Language.mem_mul]
    constructor
    · rintro ⟨x, hx, y, hy, rfl⟩
      exact ⟨x, y, rfl, (iha x).mp hx, hy⟩
    · rintro ⟨u, v, rfl, hu, hv⟩
      exact ⟨u, (iha u).mpr hu, v, hv, rfl⟩

theorem accepts_iff (r : Regex) (w : List Char) : r.accepts w = true ↔ w ∈ r.lang := by
  induction w generalizing r with
  | nil => simp [accepts, nullable_iff]
  | cons c cs ih => simp [accepts, ih, deriv_iff]

theorem mem_lang_anyStar (w : List Char) : w ∈ anyStar.lang := by
  induction w with
  | nil => exact Language.nil_mem_kstar _
  | cons c cs ih =>
    show c :: cs ∈ KStar.kstar _
    rw [cons_mem_kstar]
    exact ⟨[], cs, rfl, ⟨c, rfl, by simp [CharClass.mem]⟩, ih⟩

theorem mem_lang_star_cls (k : CharClass) (w : List Char) :
    w ∈ (star (cls k)).lang ↔ ∀ c ∈ w, k.mem c = true := by
  induction w with
  | nil => simp [lang, Language.nil_mem_kstar]
  | cons c cs ih =>
    show c :: cs ∈ KStar.kstar (cls k).lang ↔ _
    rw [cons_mem_kstar]
    constructor
    · rintro ⟨u, v, rfl, ⟨d, hd, hk⟩, hv⟩
      simp only [List.cons.injEq] at hd
      obtain ⟨rfl, rfl⟩ := hd
      intro x hx
      rcases List.mem_cons.mp hx with rfl | hx
      · exact hk
      · exact ih.mp hv x (by simpa using hx)
    · intro h
      exact ⟨[], cs, rfl, ⟨c, rfl, h c (List.mem_cons_self _ _)⟩,
        ih.mpr fun x hx => h x (List.mem_cons_of_mem _ hx)⟩

theorem mem_lang_char (c : Char) (w : List Char) : w ∈ (char c).lang ↔ w = [c] := by
  simp only [char, mem_lang_cls, CharClass.mem, inRange, List.any_cons, List.any_nil,
    Bool.or_false, Bool.false_bne, Bool.and_eq_true, decide_eq_true_eq]
  constructor
  · rintro ⟨d, rfl, h1, h2⟩
    have : d = c := Char.ext (UInt32.ext (Nat.le_antisymm h2 h1))
    rw [this]
  · rintro rfl
    exact ⟨c, rfl, le_refl _, le_refl _⟩

theorem mem_lang_lit (cs w : List Char) : w ∈ (lit cs).lang ↔ w = cs := by
  induction cs generalizing w with
  | nil => simp [lit, lang, Language.mem_one]
  | cons c cs ih =>
    show w ∈ (char c).lang * (lit cs).lang ↔ _
    rw [Language.mem_mul]
    constructor
    · rintro ⟨x, hx, y, hy, rfl⟩
      rw [(mem_lang_char c x).mp hx, (ih y).mp hy]
      rfl
    · rintro rfl
      exact ⟨[c], (mem_lang_char c _).mpr rfl, cs, (ih cs).mpr rfl, rfl⟩

end Regex

/-- An unanchored pattern matches exactly the texts with a matching substring. -/
theorem MatchString_unanchored (body : Regex) (s : String) :
    (Regexp.mk false body false).MatchString s = true ↔
      ∃ pre mid post, s.toList = pre ++ mid ++ post ∧ mid ∈ body.lang := by
  simp only [Regexp.MatchString, Regex.accepts_iff, Regex.lang, Language.mem_mul, if_false,
    Bool.false_eq_true]
  constructor
  · rintro ⟨pre, _, x, ⟨mid, hmid, post, _, rfl⟩, h⟩
    exact ⟨pre, mid, post, by rw [← h, List.append_assoc], hmid⟩
  · rintro ⟨pre, mid, post, h, hmid⟩
    exact ⟨pre, Regex.mem_lang_anyStar _, mid ++ post,
      ⟨mid, hmid, post, Regex.mem_lang_anyStar _, rfl⟩, by rw [h, List.append_assoc]⟩

/-- An anchored pattern matches exactly the texts of its language. -/
theorem MatchString_anchored (body : Regex) (s : String) :
    (Regexp.mk true body true).MatchString s = true ↔ s.toList ∈ body.lang := by
  simp only [Regexp.MatchString, Regex.accepts_iff, Regex.lang, Language.mem_mul, if_true,
    Language.mem_one]
  constructor
  · rintro ⟨a, rfl, x, ⟨mid, hmid, b, rfl, rfl⟩, h⟩
    simp only [List.nil_append, List.append_nil] at h
    rw [← h]
    exact hmid
  · intro h
    exact ⟨[], rfl, s.toList, ⟨s.toList, h, [], rfl, by simp⟩, rfl⟩

/-- A pattern that is one character class matches exactly the texts holding a
rune of the class. -/
theorem MatchString_cls (k : CharClass) (s : String) :
    (Regexp.mk false (Regex.cls k) false).MatchString s = true ↔
      ∃ c ∈ s.toList, k.mem c = true := by
  rw [MatchString_unanchored]
  constructor
  · rintro ⟨pre, mid, post, h, c, rfl, hk⟩
    exact ⟨c, by rw [h]; simp, hk⟩
  · rintro ⟨c, hc, hk⟩
    obtain ⟨pre, post, h⟩ := List.append_of_mem hc
    exact ⟨pre, [c], post, by rw [h]; simp, c, rfl, hk⟩

theorem validateEmail_empty : validateEmail "" = false := by decide
theorem validateTelephone_empty : validateTelephone "" = false := by decide
theorem validateUsername_empty : validateUsername "" = false := by decide

theorem ite_append_one (c : Prop) [Decidable c] (errs x : List String) :
    (if c then errs ++ x else errs) = errs ++ (if c then x else []) := by
  split_ifs <;> simp

theorem ite_append_two (c : Prop) [Decidable c] (errs x y : List String) :
    (if c then errs ++ x else errs ++ y) = errs ++ (if c then x else y) := by
  split_ifs <;> simp

theorem Validate_segments (user : UserModel) :
    Validate user =
      (if user.FirstName = "" then ["FirstName is not specified!"] else []) ++
      ((if user.LastName = "" then ["LastName is not specified!"] else []) ++
      ((if user.Email = "" then ["Email is not specified!"]
        else if (!validateEmail user.Email) = true then ["Invalid Email specified!"] else []) ++
      ((if user.Telephone = "" then ["Telephone is not specified!"]
        else if (!validateTelephone user.Telephone) = true then
          ["Invalid Telephone specified! Accepts (###) ###-####[[ ]x#####]"]
        else []) ++
      (if user.Username = "" then ["Username is not specified!"]
        else if (!validateUsername user.Username) = true then
          ["Invalid Username: must be between 5 and 25 characters and be only alphanumeric"]
        else [])))) := by
  unfold Validate
  simp -zeta only [ite_append_two, ite_append_one]
  simp only [List.nil_append, List.append_assoc]

/-- A guarded pair of messages emits exactly when the field rule fails, provided
the rule fails on the empty string. -/
theorem segment_by_rule (rule : String → Bool) (hempty : rule "" = false) (field a b : String) :
    (if field = "" then [a] else if (!rule field) = true then [b] else []) =
      if rule field = true then [] else [if field = "" then a else b] := by
  by_cases h : field = ""
  · subst h
    simp [hempty]
  · cases hr : rule field <;> simp [h]

/-- The list `Validate` returns, one segment per field rule. -/
theorem Validate_by_rules (user : UserModel) :
    Validate user =
      (if (user.FirstName != "") = true then [] else ["FirstName is not specified!"]) ++
      ((if (user.LastName != "") = true then [] else ["LastName is not specified!"]) ++
      ((if validateEmail user.Email = true then []
        else [if user.Email = "" then "Email is not specified!" else "Invalid Email specified!"]) ++
      ((if validateTelephone user.Telephone = true then []
        else [if user.Telephone = "" then "Telephone is not specified!"
          else "Invalid Telephone specified! Accepts (###) ###-####[[ ]x#####]"]) ++
      (if validateUsername user.Username = true then []
        else [if user.Username = "" then "Username is not specified!"
          else "Invalid Username: must be between 5 and 25 characters and be only alphanumeric"])))) := by
  rw [Validate_segments, segment_by_rule validateEmail validateEmail_empty,
    segment_by_rule validateTelephone validateTelephone_empty,
    segment_by_rule validateUsername validateUsername_empty]
  congr 1
  · by_cases h : user.FirstName = "" <;> simp [h]
  · congr 1
    by_cases h : user.LastName = "" <;> simp [h]

/-- C3: `Validate` returns exactly the ordered walk over the five field rules
(firstName, lastName, email, telephone, username), one message per violated
rule and none for a rule that holds; so at most five messages, the empty list
exactly when all five rules pass, and no dependence on id, password or
middleName. -/
theorem Validate_complete (user : UserModel) :
    Validate user = ValidateSpec user ∧
    (Validate user).length ≤ 5 ∧
    (Validate user = [] ↔
      user.FirstName ≠ "" ∧ user.LastName ≠ "" ∧ validateEmail user.Email = true ∧
        validateTelephone user.Telephone = true ∧ validateUsername user.Username = true) ∧
    (∀ (id : Int) (password middleName : String),
      Validate { user with ID := id, Password := password, MiddleName := middleName } =
        Validate user) := by
  refine ⟨?_, ?_, ?_, ?_⟩
  · rw [Validate_by_rules]
    simp only [ValidateSpec, fieldRules, List.filterMap_cons, List.filterMap_nil]
    cases (user.FirstName != "") <;> cases (user.LastName != "") <;>
      cases validateEmail user.Email <;> cases validateTelephone user.Telephone <;>
      cases validateUsername user.Username <;> rfl
  · rw [Validate_by_rules]
    simp only [List.length_append]
    split_ifs <;> simp
  · rw [Validate_by_rules]
    have h1 : user.FirstName ≠ "" ↔ (user.FirstName != "") = true := by simp
    have h2 : user.LastName ≠ "" ↔ (user.LastName != "") = true := by simp
    rw [h1, h2]
    cases (user.FirstName != "") <;> cases (user.LastName != "") <;>
      cases validateEmail user.Email <;> cases validateTelephone user.Telephone <;>
      cases validateUsername user.Username <;> simp
  · intro id password middleName
    rw [Validate_segments, Validate_segments]

/-- C4: `Create` on rejected input (a nonzero id, a non-empty `Validate` list, or
a password failing `ValidatePassword`) returns an error and issues no statement
to the store; a nonzero id is rejected first, with the id error, whatever the
other fields are. -/
theorem Create_rejects_before_store (c : Crypto) (db : PostGresDB) (user : UserModel)
    (h : user.ID ≠ 0 ∨ Validate user ≠ [] ∨ ValidatePassword user.Password = false) :
    (Create c db user).err ≠ none ∧ (Create c db user).calls = [] ∧
    (user.ID ≠ 0 →
      Create c db user = ⟨some (GoError.New "ID must be null when creating a User"), user, []⟩) := by
  unfold Create
  by_cases hid : user.ID ≠ 0
  · simp [hid]
  · have hid0 : user.ID = 0 := not_not.mp hid
    by_cases hv : Validate user = []
    · have hp : ValidatePassword user.Password = false := by
        rcases h with h | h | h
        · exact absurd h hid
        · exact absurd hv h
        · exact h
      simp [hid0, hv, handlePassword, hp]
    · have hlen : (Validate user).length > 0 := List.length_pos.mpr hv
      simp [hid0, hlen]

/-- C4 at a record with id 4 and otherwise valid fields. -/
theorem Create_rejects_before_store_witness :
    ({ sampleUser with ID := 4 } : UserModel).ID ≠ 0 ∧
    (Create sampleCrypto (sampleStore (Except.ok 1)) { sampleUser with ID := 4 }).err ≠ none ∧
    (Create sampleCrypto (sampleStore (Except.ok 1)) { sampleUser with ID := 4 }).calls = [] :=
  ⟨by decide,
   (Create_rejects_before_store sampleCrypto (sampleStore (Except.ok 1))
      { sampleUser with ID := 4 } (Or.inl (by decide))).1,
   (Create_rejects_before_store sampleCrypto (sampleStore (Except.ok 1))
      { sampleUser with ID := 4 } (Or.inl (by decide))).2.1⟩

theorem inRange_single (a c : Char) : inRange (a, a) c = true ↔ c = a := by
  simp only [inRange, Bool.and_eq_true, decide_eq_true_eq]
  constructor
  · rintro ⟨h1, h2⟩
    exact Char.ext (UInt32.ext (Nat.le_antisymm h2 h1))
  · rintro rfl
    exact ⟨le_refl _, le_refl _⟩

theorem mem_negated_single (a c : Char) : CharClass.mem ⟨true, [(a, a)]⟩ c = true ↔ c ≠ a := by
  rw [ne_eq, ← inRange_single a c]
  simp only [CharClass.mem, List.any_cons, List.any_nil, Bool.or_false]
  cases inRange (a, a) c <;> simp

/-- `DuplicateKeyError` holds exactly for the errors whose text contains the
literal prefix, a run of non-quote characters and a closing quote. -/
theorem DuplicateKeyError_iff (err : GoError) :
    DuplicateKeyError err = true ↔
      ∃ pre name post : List Char,
        err.Error.toList = pre ++ (duplicateKeyPrefix.toList ++ (name ++ ['"'])) ++ post ∧
          '"' ∉ name := by
  unfold DuplicateKeyError duplicateKeyErrRegex
  rw [MatchString_unanchored]
  constructor
  · rintro ⟨pre, mid, post, hs, hmid⟩
    obtain ⟨a, ha, rest, hrest, rfl⟩ := Language.mem_mul.mp hmid
    obtain ⟨name, hname, q, hq, rfl⟩ := Language.mem_mul.mp hrest
    rw [Regex.mem_lang_lit] at ha
    rw [Regex.mem_lang_char] at hq
    rw [Regex.mem_lang_star_cls] at hname
    subst ha
    subst hq
    refine ⟨pre, name, post, hs, fun hmem => ?_⟩
    exact (mem_negated_single _ _).mp (hname _ hmem) rfl
  · rintro ⟨pre, name, post, hs, hname⟩
    refine ⟨pre, _, post, hs, ?_⟩
    refine Language.append_mem_mul ((Regex.mem_lang_lit _ _).mpr rfl)
      (Language.append_mem_mul ?_ ((Regex.mem_lang_char _ _).mpr rfl))
    rw [Regex.mem_lang_star_cls]
    intro c hc
    exact (mem_negated_single _ _).mpr fun h => hname (h ▸ hc)

/-- C5 (as amended): when `Create` reaches its insert and the store answers
with an error, `Create` returns `ErrDuplicateKey` if the error text contains
`pq: duplicate key value violates unique constraint "<name>"` for a name
without a double quote, and returns the store error unchanged otherwise; so
for a store error other than the sentinel itself the result is
`ErrDuplicateKey` if and only if the text contains that phrase, prefix
included. -/
theorem Create_duplicate_key_mapping (c : Crypto) (db : PostGresDB) (user : UserModel)
    (err : GoError) (hid : user.ID = 0) (hval : Validate user = [])
    (hpw : (handlePassword c user).2 = none)
    (hstore : db.QueryRow insertStmt (insertArgs (handlePassword c user).1) = Except.error err) :
    (Create c db user).err = some (if DuplicateKeyError err = true then ErrDuplicateKey else err) ∧
    (DuplicateKeyError err = true ↔
      ∃ pre name post : List Char,
        err.Error.toList = pre ++ (duplicateKeyPrefix.toList ++ (name ++ ['"'])) ++ post ∧
          '"' ∉ name) ∧
    (err ≠ ErrDuplicateKey →
      ((Create c db user).err = some ErrDuplicateKey ↔ DuplicateKeyError err = true)) := by
  have hres : (Create c db user).err =
      some (if DuplicateKeyError err = true then ErrDuplicateKey else err) := by
    unfold Create
    rcases hh : handlePassword c user with ⟨user1, e1⟩
    rw [hh] at hpw hstore
    simp only at hpw hstore
    subst hpw
    simp only [hid, hval, ne_eq, not_true_eq_false, if_false, List.length_nil, gt_iff_lt,
      lt_self_iff_false, hstore]
    split_ifs <;> rfl
  refine ⟨hres, DuplicateKeyError_iff err, fun hne => ?_⟩
  rw [hres]
  by_cases hd : DuplicateKeyError err = true
  · simp [hd]
  · simp [hd, hne]

/-- C5 (as stated) fails: an error text that contains
`duplicate key value violates unique constraint "users_email_key"` without the
`pq: ` in front is returned unchanged, not mapped to `ErrDuplicateKey`. -/
theorem Create_duplicate_key_needs_pq_prefix :
    (∃ pre name post : List Char,
      otherDriverError.Error.toList =
        pre ++ ("duplicate key value violates unique constraint \"".toList ++ (name ++ ['"'])) ++
          post ∧ '"' ∉ name) ∧
    (Create sampleCrypto (sampleStore (Except.error otherDriverError)) sampleUser).err =
      some otherDriverError ∧
    otherDriverError ≠ ErrDuplicateKey := by
  refine ⟨⟨"ERROR: ".toList, "users_email_key".toList, " (SQLSTATE 23505)".toList, rfl,
    by decide⟩, ?_, by decide⟩
  decide

/-- C5 (as amended) at a store that reports a violated email constraint. -/
theorem Create_duplicate_key_mapping_witness :
    (Create sampleCrypto
      (sampleStore (Except.error (GoError.Foreign
        "pq: duplicate key value violates unique constraint \"users_email_key\""))) sampleUser).err =
      some ErrDuplicateKey :=
  (Create_duplicate_key_mapping sampleCrypto
    (sampleStore (Except.error (GoError.Foreign
      "pq: duplicate key value violates unique constraint \"users_email_key\""))) sampleUser
    (GoError.Foreign "pq: duplicate key value violates unique constraint \"users_email_key\"")
    (by decide) (by decide) (by decide) rfl).1.trans (by decide)

/-- For an accepted field `GetUsers` issues exactly the statement of `buildSelect`. -/
theorem GetUsers_calls (db : PostGresDB) (field value : String) (limit offset : Int)
    (h : field = "id" ∨ field = "username" ∨ field = "firstname" ∨ field = "middlename" ∨
      field = "lastname" ∨ field = "email" ∨ field = "telephone" ∨ field = "all") :
    (GetUsers db field value limit offset).calls =
      [⟨(buildSelect field value limit offset).1, (buildSelect field value limit offset).2⟩] := by
  have hc : (field ≠ "id" && field ≠ "username" && field ≠ "firstname" &&
      field ≠ "middlename" && field ≠ "lastname" && field ≠ "email" && field ≠ "telephone" &&
      field ≠ "all") = false := by
    rcases h with h | h | h | h | h | h | h | h <;> subst h <;> decide
  unfold GetUsers
  rw [hc]
  simp only [Bool.false_eq_true, if_false]
  rcases buildSelect field value limit offset with ⟨stmt, params⟩
  simp only
  cases db.Query stmt params with
  | error e => rfl
  | ok rows => rfl

/-- The pagination `buildSelect` writes for the field `all`: a positive offset
is not bound, and an offset that is not positive is bound after a positive limit. -/
theorem buildSelect_all_pagination (value : String) (limit offset : Int) :
    (0 < offset →
      buildSelect "all" value limit offset =
        ("SELECT " ++ USER_GET_FIELDLIST ++ " FROM users" ++ " LIMIT $1", [Param.int limit])) ∧
    (offset ≤ 0 → 0 < limit →
      buildSelect "all" value limit offset =
        ("SELECT " ++ USER_GET_FIELDLIST ++ " FROM users" ++ " LIMIT $1 OFFSET $2",
          [Param.int limit, Param.int offset])) ∧
    (offset ≤ 0 → limit ≤ 0 →
      buildSelect "all" value limit offset =
        ("SELECT " ++ USER_GET_FIELDLIST ++ " FROM users", [])) := by
  unfold buildSelect
  refine ⟨fun ho => ?_, fun ho hl => ?_, fun ho hl => ?_⟩
  · simp [ho]
  · simp [not_lt.mpr ho, hl]
  · simp [not_lt.mpr ho, not_lt.mpr hl]

/-- C6 (the code at four inputs): for every store, with a positive offset the
statement ends in `LIMIT` alone and binds only the limit, so the offset is
dropped; with offset `0` and a positive limit it ends in `LIMIT ... OFFSET ...`
and binds both. This is the reverse of the policy the claim states. -/
theorem GetUsers_pagination_reversed (db : PostGresDB) :
    (GetUsers db "all" "" 10 5).calls =
      [⟨"SELECT id, username, firstname, middlename, lastname, email, telephone FROM users LIMIT $1",
        [Param.int 10]⟩] ∧
    (GetUsers db "all" "" 100 0).calls =
      [⟨"SELECT id, username, firstname, middlename, lastname, email, telephone FROM users LIMIT $1 OFFSET $2",
        [Param.int 100, Param.int 0]⟩] ∧
    (GetUsers db "username" "johnny005" 10 5).calls =
      [⟨"SELECT id, username, firstname, middlename, lastname, email, telephone FROM users WHERE username = $1  LIMIT $2",
        [Param.str "johnny005", Param.int 10]⟩] ∧
    (GetUsers db "username" "johnny005" 10 0).calls =
      [⟨"SELECT id, username, firstname, middlename, lastname, email, telephone FROM users WHERE username = $1  LIMIT $2 OFFSET $3",
        [Param.str "johnny005", Param.int 10, Param.int 0]⟩] := by
  refine ⟨?_, ?_, ?_, ?_⟩
  · rw [GetUsers_calls db _ _ _ _ (by decide)]; decide
  · rw [GetUsers_calls db _ _ _ _ (by decide)]; decide
  · rw [GetUsers_calls db _ _ _ _ (by decide)]; decide
  · rw [GetUsers_calls db _ _ _ _ (by decide)]; decide

/-- The statement of `buildSelect` is the fixed `SELECT`, the `WHERE` clause on
the given field unless the field is `all`, and one of five fixed endings. -/
theorem buildSelect_shape (field value : String) (limit offset : Int) :
    (∃ clause ∈ ["", " LIMIT $1", " LIMIT $1 OFFSET $2", " LIMIT $2", " LIMIT $2 OFFSET $3"],
      (buildSelect field value limit offset).1 =
        "SELECT " ++ USER_GET_FIELDLIST ++ " FROM users" ++
          (if field = "all" then "" else " WHERE " ++ field ++ " = $1 ") ++ clause) ∧
    (field ≠ "all" → (buildSelect field value limit offset).2.head? = some (Param.str value)) ∧
    (field = "all" → ∀ p ∈ (buildSelect field value limit offset).2, ∃ n, p = Param.int n) := by
  unfold buildSelect
  by_cases hf : field = "all"
  · subst hf
    by_cases ho : offset > 0
    · simp [ho]
    · by_cases hl : limit > 0 <;> simp [ho, hl]
  · by_cases ho : offset > 0
    · simp [hf, ho, String.append_assoc]
    · by_cases hl : limit > 0 <;> simp [hf, ho, hl, String.append_assoc]

/-- C7: a field outside the seven column names and `all` makes `GetUsers` return
the unsupported-field error, no users and issue no statement; and every
statement `GetUsers` does issue is the fixed `SELECT` with, as the only variable
text, a `WHERE` clause on a field that is one of the seven names, while the
caller's value is the first bound parameter and no part of the statement. -/
theorem GetUsers_whitelist (db : PostGresDB) (field value : String) (limit offset : Int) :
    (field ∉ ["id", "username", "firstname", "middlename", "lastname", "email", "telephone",
        "all"] →
      GetUsers db field value limit offset =
        ⟨[], some (GoError.New ("Unsupported search field |" ++ field ++ "|")), []⟩) ∧
    (∀ call ∈ (GetUsers db field value limit offset).calls,
      (field = "all" ∨ field ∈ ["id", "username", "firstname", "middlename", "lastname", "email",
        "telephone"]) ∧
      (∃ clause ∈ ["", " LIMIT $1", " LIMIT $1 OFFSET $2", " LIMIT $2", " LIMIT $2 OFFSET $3"],
        call.stmt =
          "SELECT " ++ USER_GET_FIELDLIST ++ " FROM users" ++
            (if field = "all" then "" else " WHERE " ++ field ++ " = $1 ") ++ clause) ∧
      (field ≠ "all" → call.args.head? = some (Param.str value)) ∧
      (field = "all" → ∀ p ∈ call.args, ∃ n, p = Param.int n)) := by
  by_cases h : field = "id" ∨ field = "username" ∨ field = "firstname" ∨ field = "middlename" ∨
      field = "lastname" ∨ field = "email" ∨ field = "telephone" ∨ field = "all"
  · refine ⟨fun hn => absurd h (by simpa using hn), ?_⟩
    intro call hcall
    rw [GetUsers_calls db field value limit offset h, List.mem_singleton] at hcall
    subst hcall
    refine ⟨?_, buildSelect_shape field value limit offset⟩
    rcases h with h | h | h | h | h | h | h | h <;> simp [h]
  · have hc : (field ≠ "id" && field ≠ "username" && field ≠ "firstname" &&
        field ≠ "middlename" && field ≠ "lastname" && field ≠ "email" &&
        field ≠ "telephone" && field ≠ "all") = true := by
      simp only [not_or] at h
      simp [h]
    have hr : GetUsers db field value limit offset =
        ⟨[], some (GoError.New ("Unsupported search field |" ++ field ++ "|")), []⟩ := by
      unfold GetUsers
      rw [hc]
      rfl
    refine ⟨fun _ => hr, ?_⟩
    rw [hr]
    intro call hcall
    simp at hcall

/-- C7 at the field text `id; DROP TABLE users`. -/
theorem GetUsers_whitelist_witness :
    GetUsers (sampleStore (Except.ok 1)) "id; DROP TABLE users" "1" 1 0 =
      ⟨[], some (GoError.New "Unsupported search field |id; DROP TABLE users|"), []⟩ :=
  (GetUsers_whitelist (sampleStore (Except.ok 1)) "id; DROP TABLE users" "1" 1 0).1 (by decide)

/-- The statements and result of the tail of `Update`. -/
theorem updateExec_calls (db : PostGresDB) (user : UserModel) (stmt : String)
    (args : List Param) : (updateExec db user stmt args).calls = [⟨stmt, args⟩] := by
  unfold updateExec
  cases db.Exec stmt args with
  | error e => rfl
  | ok rows => by_cases h : rows = 0 <;> simp [h]

theorem updateExec_err (db : PostGresDB) (user : UserModel) (stmt : String)
    (args : List Param) (rows : Int) (h : db.Exec stmt args = Except.ok rows) :
    (updateExec db user stmt args).err = if rows = 0 then some GoError.ErrNoRows else none := by
  unfold updateExec
  rw [h]
  by_cases h0 : rows = 0 <;> simp [h0]

/-- The result of `updateSend` follows the affected count of the statement it issued. -/
theorem updateSend_err (db : PostGresDB) (user : UserModel) (stmt : String) (call : Call)
    (rows : Int) (hcall : (updateSend db user stmt).calls = [call])
    (hrows : db.Exec call.stmt call.args = Except.ok rows) :
    (updateSend db user stmt).err = if rows = 0 then some GoError.ErrNoRows else none := by
  unfold updateSend at hcall ⊢
  by_cases hp : user.Password = ""
  · simp only [hp, ne_eq, not_true_eq_false, if_false, updateExec_calls, List.cons.injEq,
      and_true] at hcall ⊢
    subst hcall
    exact updateExec_err db _ _ _ rows hrows
  · simp only [hp, ne_eq, not_false_eq_true, if_true, updateExec_calls, List.cons.injEq,
      and_true] at hcall ⊢
    subst hcall
    exact updateExec_err db _ _ _ rows hrows

/-- `handlePassword` on a password that passes the policy and hashes. -/
theorem handlePassword_ok (c : Crypto) (user : UserModel) (encoded : String)
    (hp : ValidatePassword user.Password = true)
    (hh : hashPassword c user.Password = (encoded, none)) :
    handlePassword c user = ({ user with Password := encoded }, none) := by
  unfold handlePassword
  simp [hp, hh]

/-- `handlePassword` on a password that fails the policy. -/
theorem handlePassword_invalid (c : Crypto) (user : UserModel)
    (hp : ValidatePassword user.Password = false) :
    handlePassword c user = (user, some (GoError.New passwordPolicyMessage)) := by
  unfold handlePassword
  simp [hp]

/-- `hashPassword` when `bcrypt.GenerateFromPassword` succeeds: the base64
encoding of the generated hash and a nil error. -/
theorem hashPassword_ok (c : Crypto) (password : String) (hash : List Nat)
    (h : c.GenerateFromPassword password = Except.ok hash) :
    hashPassword c password = (c.EncodeToString hash, none) := by
  unfold hashPassword
  rw [h]

/-- `hashPassword` when `bcrypt.GenerateFromPassword` fails. -/
theorem hashPassword_error (c : Crypto) (password : String) (e : GoError)
    (h : c.GenerateFromPassword password = Except.error e) :
    hashPassword c password = ("", some e) := by
  unfold hashPassword
  rw [h]

/-- A password that passes `ValidatePassword` has at most 25 bytes. -/
theorem ValidatePassword_len (password : String) (h : ValidatePassword password = true) :
    password.utf8ByteSize ≤ 25 := by
  unfold ValidatePassword at h
  by_cases hl : (decide (password.utf8ByteSize < 8) || decide (password.utf8ByteSize > 25)) = true
  · rw [if_pos hl] at h
    exact absurd h (by decide)
  · simp only [Bool.or_eq_true, decide_eq_true_eq, not_or, not_lt, gt_iff_lt] at hl
    exact hl.2

/-- `Update` with an empty password: the statement without `password_hash` and
its seven bound values go to `Exec`. -/
theorem Update_empty_password (c : Crypto) (db : PostGresDB) (user : UserModel)
    (hid : user.ID ≠ 0) (hval : Validate user = []) (hp : user.Password = "") :
    Update c db user =
      updateExec db user
        "UPDATE users SET username = $2, firstname = $3, middlename = $4, lastname = $5, email = $6, telephone = $7 WHERE id = $1"
        [Param.int user.ID, Param.str user.Username, Param.str user.FirstName,
          Param.str user.MiddleName, Param.str user.LastName, Param.str user.Email,
          Param.str user.Telephone] := by
  unfold Update
  simp only [hid, hval, hp, if_false, List.length_nil, gt_iff_lt, lt_self_iff_false, ne_eq,
    not_true_eq_false, updateSend]
  rfl

/-- `Update` with a password that passes the policy and whose generated hash
encodes to a non-empty text: the statement with `password_hash = $8` goes to
`Exec`, with the encoding of the generated hash as the eighth bound value. -/
theorem Update_hashed (c : Crypto) (db : PostGresDB) (user : UserModel) (hash : List Nat)
    (hid : user.ID ≠ 0) (hval : Validate user = []) (hp : user.Password ≠ "")
    (hvp : ValidatePassword user.Password = true)
    (hgen : c.GenerateFromPassword user.Password = Except.ok hash)
    (hne : c.EncodeToString hash ≠ "") :
    Update c db user =
      updateExec db { user with Password := c.EncodeToString hash }
        "UPDATE users SET username = $2, firstname = $3, middlename = $4, lastname = $5, email = $6, telephone = $7, password_hash = $8 WHERE id = $1"
        [Param.int user.ID, Param.str user.Username, Param.str user.FirstName,
          Param.str user.MiddleName, Param.str user.LastName, Param.str user.Email,
          Param.str user.Telephone, Param.str (c.EncodeToString hash)] := by
  unfold Update
  simp only [hid, hval, hp, if_false, if_true, List.length_nil, gt_iff_lt, lt_self_iff_false,
    ne_eq, not_false_eq_true,
    handlePassword_ok c user (c.EncodeToString hash) hvp (hashPassword_ok c _ hash hgen),
    updateSend, hne]
  rfl

/-- C8: for a record with nonzero id that passes `Validate`. With an empty
password the statement of `Update` does not assign `password_hash` and binds
the seven values id, username, firstName, middleName, lastName, email,
telephone. With a non-empty password that passes `ValidatePassword`, for which
`bcrypt.GenerateFromPassword` returns a hash whose base64 encoding is not
empty, the statement assigns `password_hash = $8` and the eighth bound value is
the base64 encoding of that generated hash; that value is not the plaintext
whenever it is longer than 25 bytes (the encoding of a bcrypt hash has 80).
Whatever the primitives return, an eighth bound value of `Update` is the
encoding of the hash generated from the password, and a failed hashing issues
nothing. With a non-empty password that fails `ValidatePassword`, `Update`
returns an error and issues nothing. -/
theorem Update_credential (c : Crypto) (db : PostGresDB) (user : UserModel)
    (hid : user.ID ≠ 0) (hval : Validate user = []) :
    (user.Password = "" →
      (Update c db user).calls =
        [⟨"UPDATE users SET username = $2, firstname = $3, middlename = $4, lastname = $5, email = $6, telephone = $7 WHERE id = $1",
          [Param.int user.ID, Param.str user.Username, Param.str user.FirstName,
            Param.str user.MiddleName, Param.str user.LastName, Param.str user.Email,
            Param.str user.Telephone]⟩]) ∧
    (∀ hash : List Nat, user.Password ≠ "" → ValidatePassword user.Password = true →
      c.GenerateFromPassword user.Password = Except.ok hash → c.EncodeToString hash ≠ "" →
      (Update c db user).calls =
        [⟨"UPDATE users SET username = $2, firstname = $3, middlename = $4, lastname = $5, email = $6, telephone = $7, password_hash = $8 WHERE id = $1",
          [Param.int user.ID, Param.str user.Username, Param.str user.FirstName,
            Param.str user.MiddleName, Param.str user.LastName, Param.str user.Email,
            Param.str user.Telephone, Param.str (c.EncodeToString hash)]⟩] ∧
      (25 < (c.EncodeToString hash).utf8ByteSize →
        Param.str (c.EncodeToString hash) ≠ Param.str user.Password)) ∧
    (∀ call ∈ (Update c db user).calls, ∀ p : Param, call.args.get? 7 = some p →
      ∃ hash : List Nat, c.GenerateFromPassword user.Password = Except.ok hash ∧
        p = Param.str (c.EncodeToString hash)) ∧
    (∀ e : GoError, user.Password ≠ "" → ValidatePassword user.Password = true →
      c.GenerateFromPassword user.Password = Except.error e →
      (Update c db user).err ≠ none ∧ (Update c db user).calls = []) ∧
    (user.Password ≠ "" → ValidatePassword user.Password = false →
      (Update c db user).err ≠ none ∧ (Update c db user).calls = []) := by
  have hfail : ∀ e : GoError, user.Password ≠ "" → ValidatePassword user.Password = true →
      c.GenerateFromPassword user.Password = Except.error e →
      (Update c db user).err ≠ none ∧ (Update c db user).calls = [] := by
    intro e hp hvp hgen
    have hh : handlePassword c user =
        ({ user with Password := "" }, some (GoError.New "failed to Encode Password")) := by
      unfold handlePassword
      simp [hvp, hashPassword_error c _ e hgen]
    unfold Update
    simp only [hid, hval, hp, if_false, if_true, List.length_nil, gt_iff_lt, lt_self_iff_false,
      ne_eq, not_false_eq_true, hh]
    exact ⟨by simp, trivial⟩
  have hbad : user.Password ≠ "" → ValidatePassword user.Password = false →
      (Update c db user).err ≠ none ∧ (Update c db user).calls = [] := by
    intro hp hvp
    unfold Update
    simp only [hid, hval, hp, if_false, if_true, List.length_nil, gt_iff_lt, lt_self_iff_false,
      ne_eq, not_false_eq_true, handlePassword_invalid c user hvp]
    exact ⟨by simp, trivial⟩
  refine ⟨?_, ?_, ?_, hfail, hbad⟩
  · intro hp
    rw [Update_empty_password c db user hid hval hp, updateExec_calls]
  · intro hash hp hvp hgen hne
    refine ⟨?_, fun hlen heq => ?_⟩
    · rw [Update_hashed c db user hash hid hval hp hvp hgen hne, updateExec_calls]
    · have h1 : c.EncodeToString hash = user.Password := by injection heq
      have h2 := ValidatePassword_len user.Password hvp
      rw [h1] at hlen
      omega
  · intro call hcall p hp8
    by_cases hp : user.Password = ""
    · rw [Update_empty_password c db user hid hval hp, updateExec_calls,
        List.mem_singleton] at hcall
      subst hcall
      simp at hp8
    · cases hvp : ValidatePassword user.Password with
      | false =>
        rw [(hbad hp hvp).2] at hcall
        simp at hcall
      | true =>
        rcases hgen : c.GenerateFromPassword user.Password with e | hash
        · rw [(hfail e hp hvp hgen).2] at hcall
          simp at hcall
        · by_cases hne : c.EncodeToString hash = ""
          · have hU : Update c db user =
                updateSend db { user with Password := c.EncodeToString hash }
                  (updateStmtBase ++ ", password_hash = $8") := by
              unfold Update
              simp only [hid, hval, hp, if_false, if_true, List.length_nil, gt_iff_lt,
                lt_self_iff_false, ne_eq, not_false_eq_true,
                handlePassword_ok c user (c.EncodeToString hash) hvp
                  (hashPassword_ok c _ hash hgen)]
            rw [hU] at hcall
            unfold updateSend at hcall
            simp only [hne, ne_eq, not_true_eq_false, if_false, updateExec_calls,
              List.mem_singleton] at hcall
            subst hcall
            simp at hp8
          · rw [Update_hashed c db user hash hid hval hp hvp hgen hne, updateExec_calls,
              List.mem_singleton] at hcall
            subst hcall
            simp only [List.get?_eq_getElem?, List.getElem?_cons_succ, List.getElem?_cons_zero,
              Option.some.injEq] at hp8
            exact ⟨hash, rfl, hp8.symm⟩

/-- C8 at a record with id 3 and the password `goodPass034!!`. -/
theorem Update_credential_witness :
    (Update sampleCrypto (sampleStore (Except.ok 1)) { sampleUser with ID := 3 }).calls =
      [⟨"UPDATE users SET username = $2, firstname = $3, middlename = $4, lastname = $5, email = $6, telephone = $7, password_hash = $8 WHERE id = $1",
        [Param.int 3, Param.str "johnny005", Param.str "John", Param.str "", Param.str "Doe",
          Param.str "bob@bob.win", Param.str "(555) 555-5555",
          Param.str (sampleCrypto.EncodeToString (List.replicate 60 36))]⟩] ∧
    Param.str (sampleCrypto.EncodeToString (List.replicate 60 36)) ≠ Param.str "goodPass034!!" :=
  ⟨((Update_credential sampleCrypto (sampleStore (Except.ok 1)) { sampleUser with ID := 3 }
      (by decide) (by decide)).2.1 (List.replicate 60 36)
      (by decide) (by decide) rfl (by decide)).1,
   ((Update_credential sampleCrypto (sampleStore (Except.ok 1)) { sampleUser with ID := 3 }
      (by decide) (by decide)).2.1 (List.replicate 60 36)
      (by decide) (by decide) rfl (by decide)).2 (by decide)⟩

/-- C9: `Delete` with id 0 returns `sql.ErrNoRows` and issues no statement. For
a nonzero id `Delete` issues its `DELETE`, and `Update` on a record that passes
`Validate` issues its `UPDATE` (without `password_hash` for an empty password,
with it and the encoded hash for a password that passes the policy and
hashes); when the store executes that statement without error, both return
`sql.ErrNoRows` if the affected count is zero and nil if it is not. The last
part adds that the result of `Update` follows the affected count of whatever
single statement it issued, which also covers an empty encoded hash. -/
theorem not_found_symmetry (c : Crypto) (db : PostGresDB) (user : UserModel) :
    (user.ID = 0 → Delete db user = ⟨some GoError.ErrNoRows, user, []⟩) ∧
    (user.ID ≠ 0 → ∀ rows : Int, db.Exec deleteStmt [Param.int user.ID] = Except.ok rows →
      (Delete db user).calls = [⟨deleteStmt, [Param.int user.ID]⟩] ∧
      (Delete db user).err = if rows = 0 then some GoError.ErrNoRows else none) ∧
    (user.ID ≠ 0 → Validate user = [] → user.Password = "" → ∀ rows : Int,
      db.Exec
          "UPDATE users SET username = $2, firstname = $3, middlename = $4, lastname = $5, email = $6, telephone = $7 WHERE id = $1"
          [Param.int user.ID, Param.str user.Username, Param.str user.FirstName,
            Param.str user.MiddleName, Param.str user.LastName, Param.str user.Email,
            Param.str user.Telephone] = Except.ok rows →
      (Update c db user).calls =
        [⟨"UPDATE users SET username = $2, firstname = $3, middlename = $4, lastname = $5, email = $6, telephone = $7 WHERE id = $1",
          [Param.int user.ID, Param.str user.Username, Param.str user.FirstName,
            Param.str user.MiddleName, Param.str user.LastName, Param.str user.Email,
            Param.str user.Telephone]⟩] ∧
      (Update c db user).err = if rows = 0 then some GoError.ErrNoRows else none) ∧
    (user.ID ≠ 0 → Validate user = [] → ∀ (hash : List Nat) (rows : Int),
      user.Password ≠ "" → ValidatePassword user.Password = true →
      c.GenerateFromPassword user.Password = Except.ok hash → c.EncodeToString hash ≠ "" →
      db.Exec
          "UPDATE users SET username = $2, firstname = $3, middlename = $4, lastname = $5, email = $6, telephone = $7, password_hash = $8 WHERE id = $1"
          [Param.int user.ID, Param.str user.Username, Param.str user.FirstName,
            Param.str user.MiddleName, Param.str user.LastName, Param.str user.Email,
            Param.str user.Telephone, Param.str (c.EncodeToString hash)] = Except.ok rows →
      (Update c db user).calls =
        [⟨"UPDATE users SET username = $2, firstname = $3, middlename = $4, lastname = $5, email = $6, telephone = $7, password_hash = $8 WHERE id = $1",
          [Param.int user.ID, Param.str user.Username, Param.str user.FirstName,
            Param.str user.MiddleName, Param.str user.LastName, Param.str user.Email,
            Param.str user.Telephone, Param.str (c.EncodeToString hash)]⟩] ∧
      (Update c db user).err = if rows = 0 then some GoError.ErrNoRows else none) ∧
    (user.ID ≠ 0 → Validate user = [] → ∀ (call : Call) (rows : Int),
      (Update c db user).calls = [call] → db.Exec call.stmt call.args = Except.ok rows →
      (Update c db user).err = if rows = 0 then some GoError.ErrNoRows else none) := by
  refine ⟨?_, ?_, ?_, ?_, ?_⟩
  · intro h
    unfold Delete
    simp [h]
  · intro h rows hrows
    unfold Delete
    rw [hrows]
    by_cases h0 : rows = 0 <;> simp [h, h0]
  · intro hid hval hp rows hrows
    rw [Update_empty_password c db user hid hval hp]
    exact ⟨updateExec_calls db _ _ _, updateExec_err db _ _ _ rows hrows⟩
  · intro hid hval hash rows hp hvp hgen hne hrows
    rw [Update_hashed c db user hash hid hval hp hvp hgen hne]
    exact ⟨updateExec_calls db _ _ _, updateExec_err db _ _ _ rows hrows⟩
  · intro hid hval call rows
    unfold Update
    simp only [hid, hval, if_false, List.length_nil, gt_iff_lt, lt_self_iff_false]
    by_cases hp : user.Password = ""
    · simp only [hp, ne_eq, not_true_eq_false, if_false]
      exact updateSend_err db _ _ call rows
    · simp only [ne_eq, hp, not_false_eq_true, if_true]
      rcases hh : handlePassword c user with ⟨user1, _ | e⟩
      · exact updateSend_err db _ _ call rows
      · simp

/-- C9 at stores that report zero affected rows and one affected row, for a
record with id 3 and a password that is hashed. -/
theorem not_found_symmetry_witness :
    (Delete (sampleStore (Except.ok 0)) { sampleUser with ID := 3 }).err =
      some GoError.ErrNoRows ∧
    ((Update sampleCrypto (sampleStore (Except.ok 0)) { sampleUser with ID := 3 }).calls =
      [⟨"UPDATE users SET username = $2, firstname = $3, middlename = $4, lastname = $5, email = $6, telephone = $7, password_hash = $8 WHERE id = $1",
        [Param.int 3, Param.str "johnny005", Param.str "John", Param.str "", Param.str "Doe",
          Param.str "bob@bob.win", Param.str "(555) 555-5555",
          Param.str (sampleCrypto.EncodeToString (List.replicate 60 36))]⟩] ∧
      (Update sampleCrypto (sampleStore (Except.ok 0)) { sampleUser with ID := 3 }).err =
        some GoError.ErrNoRows) ∧
    (Update sampleCrypto (sampleStore (Except.ok 1)) { sampleUser with ID := 3 }).err = none ∧
    (Update sampleCrypto (sampleStore (Except.ok 1))
      { sampleUser with ID := 3, Password := "" }).err = none :=
  ⟨((not_found_symmetry sampleCrypto (sampleStore (Except.ok 0))
      { sampleUser with ID := 3 }).2.1 (by decide) 0 rfl).2,
   (not_found_symmetry sampleCrypto (sampleStore (Except.ok 0))
      { sampleUser with ID := 3 }).2.2.2.1 (by decide) (by decide) (List.replicate 60 36) 0
      (by decide) (by decide) rfl (by decide) rfl,
   ((not_found_symmetry sampleCrypto (sampleStore (Except.ok 1))
      { sampleUser with ID := 3 }).2.2.2.1 (by decide) (by decide) (List.replicate 60 36) 1
      (by decide) (by decide) rfl (by decide) rfl).2,
   ((not_found_symmetry sampleCrypto (sampleStore (Except.ok 1))
      { sampleUser with ID := 3, Password := "" }).2.2.1 (by decide) (by decide) rfl 1 rfl).2⟩

/-- The error of `Update` for a non-empty password that fails the policy: the
submitted password stands in its text. -/
theorem Update_bad_password_error (c : Crypto) (db : PostGresDB) (user : UserModel)
    (hid : user.ID ≠ 0) (hval : Validate user = []) (hne : user.Password ≠ "")
    (hp : ValidatePassword user.Password = false) :
    (Update c db user).err =
      some (GoError.New ("Bad Password: " ++ user.Password ++ ":: " ++ passwordPolicyMessage)) := by
  unfold Update
  simp only [hid, hval, hne, if_false, if_true, List.length_nil, gt_iff_lt, lt_self_iff_false,
    ne_eq, not_false_eq_true, handlePassword_invalid c user hp]
  rfl

/-- C10 (the code at two inputs): for every store and credential primitives,
`Update` on two records that differ only in their passwords `short1` and
`short2`, both failing `ValidatePassword`, returns two different error texts,
each of which starts with `Bad Password: ` followed by the submitted plaintext;
`UpdateUser` writes that text to the client. -/
theorem Update_error_carries_password (c : Crypto) (db : PostGresDB) :
    (Update c db { sampleUser with ID := 3, Password := "short1" }).err =
      some (GoError.New ("Bad Password: " ++ "short1" ++ ":: " ++ passwordPolicyMessage)) ∧
    (Update c db { sampleUser with ID := 3, Password := "short2" }).err =
      some (GoError.New ("Bad Password: " ++ "short2" ++ ":: " ++ passwordPolicyMessage)) ∧
    UpdateUserErrorMessage c db { sampleUser with ID := 3, Password := "short1" } =
      some ("Bad Password: " ++ "short1" ++ ":: " ++ passwordPolicyMessage) ∧
    UpdateUserErrorMessage c db { sampleUser with ID := 3, Password := "short1" } ≠
      UpdateUserErrorMessage c db { sampleUser with ID := 3, Password := "short2" } := by
  have h1 : (Update c db { sampleUser with ID := 3, Password := "short1" }).err =
      some (GoError.New ("Bad Password: " ++ "short1" ++ ":: " ++ passwordPolicyMessage)) :=
    Update_bad_password_error c db _ (by decide) (by decide) (by decide) (by decide)
  have h2 : (Update c db { sampleUser with ID := 3, Password := "short2" }).err =
      some (GoError.New ("Bad Password: " ++ "short2" ++ ":: " ++ passwordPolicyMessage)) :=
    Update_bad_password_error c db _ (by decide) (by decide) (by decide) (by decide)
  refine ⟨h1, h2, ?_, ?_⟩
  · unfold UpdateUserErrorMessage
    rw [h1]
    rfl
  · unfold UpdateUserErrorMessage
    rw [h1, h2]
    decide

/-! ### The password policy -/

/-- Byte length and rune count agree on ASCII text. -/
theorem utf8ByteSize_of_ascii (s : String) (h : ∀ c ∈ s.toList, c.toNat < 128) :
    s.utf8ByteSize = s.length := by
  rcases s with ⟨cs⟩
  simp only [String.utf8ByteSize_mk, String.length]
  simp only [String.toList] at h
  induction cs with
  | nil => rfl
  | cons c cs ih =>
    have hc : c.toNat < 128 := h c (List.mem_cons_self _ _)
    have h1 : c.utf8Size = 1 := by
      have : c.val ≤ UInt32.ofNatCore 127 (by decide) := by
        show c.val.toNat ≤ 127
        have : c.val.toNat = c.toNat := rfl
        omega
      unfold Char.utf8Size
      exact if_pos this
    rw [String.utf8Len_cons, ih (fun d hd => h d (List.mem_cons_of_mem _ hd)), h1]
    rfl

theorem PASS_HAS_UPPERCASE_eq :
    PASS_HAS_UPPERCASE = ⟨false, Regex.cls ⟨false, [('A', 'Z')]⟩, false⟩ := by decide

theorem PASS_HAS_SPECIAL_eq :
    PASS_HAS_SPECIAL = ⟨false, Regex.cls ⟨false,
      [('!', '!'), ('@', '@'), ('#', '#'), ('$', '$'), ('%', '%'), ('&', '&'), ('?', '?'),
       ('+', '+'), ('.', '.'), (',', ','), ('*', '*'), ('^', '_'), ('=', '='), ('<', '<'),
       ('>', '>'), ('[', '['), (']', ']'), ('(', '('), (')', ')'), ('{', '{'), ('}', '}')]⟩,
      false⟩ := by decide

theorem PASS_HAS_LOWERCASE_eq :
    PASS_HAS_LOWERCASE = ⟨false, Regex.cls ⟨false, [('a', 'z')]⟩, false⟩ := by decide

theorem PASS_HAS_NUMBER_eq :
    PASS_HAS_NUMBER = ⟨false, Regex.cls ⟨false, [('0', '9')]⟩, false⟩ := by decide

theorem PASS_HAS_ILLEGAL_eq :
    PASS_HAS_ILLEGAL = ⟨false, Regex.cls ⟨true,
      [('a', 'z'), ('A', 'Z'), ('0', '9'),
       ('!', '!'), ('@', '@'), ('#', '#'), ('$', '$'), ('%', '%'), ('&', '&'), ('?', '?'),
       ('+', '+'), ('.', '.'), (',', ','), ('*', '*'), ('^', '_'), ('=', '='), ('<', '<'),
       ('>', '>'), ('[', '['), (']', ']'), ('(', '('), (')', ')'), ('{', '{'), ('}', '}')]⟩,
      false⟩ := by decide

/-- The range written `\^-_` holds the caret and the underscore, not the hyphen. -/
theorem inRange_caret_underscore (c : Char) : inRange ('^', '_') c = true ↔ c = '^' ∨ c = '_' := by
  simp only [inRange, Bool.and_eq_true, decide_eq_true_eq]
  have h1 : ('^' : Char).toNat = 94 := rfl
  have h2 : ('_' : Char).toNat = 95 := rfl
  rw [h1, h2]
  constructor
  · rintro ⟨ha, hb⟩
    rcases (by omega : c.toNat = 94 ∨ c.toNat = 95) with h | h
    · exact Or.inl (Char.ext (UInt32.ext h))
    · exact Or.inr (Char.ext (UInt32.ext h))
  · rintro (rfl | rfl) <;> decide

/-- Membership in the class of `PASS_HAS_SPECIAL`. -/
theorem mem_special_class (c : Char) :
    (List.any
      [('!', '!'), ('@', '@'), ('#', '#'), ('$', '$'), ('%', '%'), ('&', '&'), ('?', '?'),
       ('+', '+'), ('.', '.'), (',', ','), ('*', '*'), ('^', '_'), ('=', '='), ('<', '<'),
       ('>', '>'), ('[', '['), (']', ']'), ('(', '('), (')', ')'), ('{', '{'), ('}', '}')]
      (fun r => inRange r c)) = true ↔ c ∈ acceptedSpecials := by
  simp only [List.any_cons, List.any_nil, Bool.or_false, Bool.or_eq_true, inRange_single,
    inRange_caret_underscore, acceptedSpecials, List.mem_cons, List.mem_singleton, or_assoc,
    List.not_mem_nil, or_false]



/-- A rune of one of the three alphanumeric ranges or of the accepted specials is ASCII. -/
theorem legal_is_ascii (c : Char)
    (h : inRange ('a', 'z') c = true ∨ inRange ('A', 'Z') c = true ∨
      inRange ('0', '9') c = true ∨ c ∈ acceptedSpecials) : c.toNat < 128 := by
  rcases h with h | h | h | h
  · simp only [inRange, Bool.and_eq_true, decide_eq_true_eq] at h
    have : ('z' : Char).toNat = 122 := rfl
    omega
  · simp only [inRange, Bool.and_eq_true, decide_eq_true_eq] at h
    have : ('Z' : Char).toNat = 90 := rfl
    omega
  · simp only [inRange, Bool.and_eq_true, decide_eq_true_eq] at h
    have : ('9' : Char).toNat = 57 := rfl
    omega
  · simp only [acceptedSpecials, List.mem_cons, List.mem_singleton, List.not_mem_nil,
      or_false] at h
    rcases h with h | h | h | h | h | h | h | h | h | h | h | h | h | h | h | h | h | h | h | h |
      h | h <;> subst h <;> decide

/-- What `ValidatePassword` accepts: 8 to 25 characters, an uppercase letter, a
lowercase letter, a digit, one of the accepted specials, and no character
outside the letters, the digits and the accepted specials. The hyphen is not
among the accepted specials. -/
theorem ValidatePassword_iff (s : String) :
    ValidatePassword s = true ↔
      (8 ≤ s.length ∧ s.length ≤ 25) ∧
      (∃ c ∈ s.toList, inRange ('A', 'Z') c = true) ∧
      (∃ c ∈ s.toList, inRange ('a', 'z') c = true) ∧
      (∃ c ∈ s.toList, inRange ('0', '9') c = true) ∧
      (∃ c ∈ s.toList, c ∈ acceptedSpecials) ∧
      (∀ c ∈ s.toList, inRange ('a', 'z') c = true ∨ inRange ('A', 'Z') c = true ∨
        inRange ('0', '9') c = true ∨ c ∈ acceptedSpecials) := by
  have hU : PASS_HAS_UPPERCASE.MatchString s = true ↔
      ∃ c ∈ s.toList, inRange ('A', 'Z') c = true := by
    rw [PASS_HAS_UPPERCASE_eq, MatchString_cls]
    simp [CharClass.mem]
  have hL : PASS_HAS_LOWERCASE.MatchString s = true ↔
      ∃ c ∈ s.toList, inRange ('a', 'z') c = true := by
    rw [PASS_HAS_LOWERCASE_eq, MatchString_cls]
    simp [CharClass.mem]
  have hN : PASS_HAS_NUMBER.MatchString s = true ↔
      ∃ c ∈ s.toList, inRange ('0', '9') c = true := by
    rw [PASS_HAS_NUMBER_eq, MatchString_cls]
    simp [CharClass.mem]
  have hS : PASS_HAS_SPECIAL.MatchString s = true ↔ ∃ c ∈ s.toList, c ∈ acceptedSpecials := by
    rw [PASS_HAS_SPECIAL_eq, MatchString_cls]
    simp only [CharClass.mem, Bool.false_bne, mem_special_class]
  have hI : PASS_HAS_ILLEGAL.MatchString s = false ↔
      ∀ c ∈ s.toList, inRange ('a', 'z') c = true ∨ inRange ('A', 'Z') c = true ∨
        inRange ('0', '9') c = true ∨ c ∈ acceptedSpecials := by
    rw [← Bool.not_eq_true, PASS_HAS_ILLEGAL_eq, MatchString_cls]
    simp only [CharClass.mem, Bool.true_bne, Bool.not_eq_true', not_exists, not_and,
      Bool.not_eq_false]
    refine forall₂_congr fun c _ => ?_
    rw [List.any_cons, List.any_cons, List.any_cons, Bool.or_eq_true, Bool.or_eq_true,
      Bool.or_eq_true, mem_special_class]
  have hV : ValidatePassword s = true ↔
      (8 ≤ s.utf8ByteSize ∧ s.utf8ByteSize ≤ 25) ∧ PASS_HAS_UPPERCASE.MatchString s = true ∧
        PASS_HAS_LOWERCASE.MatchString s = true ∧ PASS_HAS_NUMBER.MatchString s = true ∧
        PASS_HAS_SPECIAL.MatchString s = true ∧ PASS_HAS_ILLEGAL.MatchString s = false := by
    unfold ValidatePassword
    cases PASS_HAS_UPPERCASE.MatchString s <;> cases PASS_HAS_LOWERCASE.MatchString s <;>
      cases PASS_HAS_NUMBER.MatchString s <;> cases PASS_HAS_SPECIAL.MatchString s <;>
      cases PASS_HAS_ILLEGAL.MatchString s <;>
      simp
  rw [hV, hU, hL, hN, hS, hI]
  constructor
  · rintro ⟨hlen, h1, h2, h3, h4, h5⟩
    rw [utf8ByteSize_of_ascii s fun c hc => legal_is_ascii c (h5 c hc)] at hlen
    exact ⟨hlen, h1, h2, h3, h4, h5⟩
  · rintro ⟨hlen, h1, h2, h3, h4, h5⟩
    rw [utf8ByteSize_of_ascii s fun c hc => legal_is_ascii c (h5 c hc)]
    exact ⟨hlen, h1, h2, h3, h4, h5⟩

/-- C1 (the code at two inputs): a password of twelve characters with an
uppercase letter, lowercase letters, digits and the hyphen as its only special
character is rejected, and so is one that has `!` as its special character and
a hyphen elsewhere: the hyphen of `PASS_SPECIAL_CHARS` stands between `\^` and
`_` and so denotes the range from `^` to `_`, not itself. -/
theorem ValidatePassword_rejects_hyphen :
    ValidatePassword "goodPass034-" = false ∧ ValidatePassword "good-Pass034!" = false ∧
    ValidatePassword "goodPass034!" = true ∧
    PASS_HAS_SPECIAL.MatchString "-" = false ∧ PASS_HAS_ILLEGAL.MatchString "-" = true := by
  decide

/-! ### The field validators -/

/-- `Split` yields one more piece than there are separators. -/
theorem Split_length (sep : Char) (cs : List Char) :
    (Split sep cs).length = cs.count sep + 1 := by
  induction cs with
  | nil => rfl
  | cons c cs ih =>
    by_cases h : c = sep
    · subst h
      simp [Split, ih]
    · have hne : (c == sep) = false := by simpa using h
      rw [List.count_cons, hne]
      simp only [Split, h, if_false, Bool.false_eq_true, Nat.add_zero]
      rw [← ih]
      rcases hS : Split sep cs with _ | ⟨p, ps⟩
      · rw [hS] at ih
        simp at ih
      · rfl

/-- C14: `validateEmail` holds exactly for the texts with exactly one `@`; so
the empty text, a text without `@` and a text with two `@` are rejected, and
`a@`, with an empty part after the `@`, is accepted. -/
theorem validateEmail_iff (s : String) :
    (validateEmail s = true ↔ s.toList.count '@' = 1) ∧
    validateEmail "" = false ∧ validateEmail "nodomain.fail" = false ∧
    validateEmail "too@many@atsigns.fail" = false ∧ validateEmail "a@" = true := by
  refine ⟨?_, by decide, by decide, by decide, by decide⟩
  unfold validateEmail
  rw [Split_length]
  simp

theorem USERNAME_REGEX_eq :
    USERNAME_REGEX = ⟨false, Regex.cls ⟨true, [('a', 'z'), ('A', 'Z'), ('0', '9')]⟩, false⟩ := by
  decide

/-- The class of `USERNAME_REGEX` holds exactly the runes that are not ASCII
letters or digits. -/
theorem mem_username_class (c : Char) :
    CharClass.mem ⟨true, [('a', 'z'), ('A', 'Z'), ('0', '9')]⟩ c = true ↔ isalnum c = false := by
  have ha : ('a' : Char).toNat = 97 := rfl
  have hz : ('z' : Char).toNat = 122 := rfl
  have hA : ('A' : Char).toNat = 65 := rfl
  have hZ : ('Z' : Char).toNat = 90 := rfl
  have h0 : ('0' : Char).toNat = 48 := rfl
  have h9 : ('9' : Char).toNat = 57 := rfl
  simp only [CharClass.mem, List.any_cons, List.any_nil, Bool.or_false, inRange, isalnum, ha, hz,
    hA, hZ, h0, h9, Bool.true_bne, Bool.not_eq_true', Bool.or_eq_false_iff, Bool.and_eq_false_imp,
    decide_eq_true_eq, decide_eq_false_iff_not]
  omega

theorem isalnum_is_ascii (c : Char) (h : isalnum c = true) : c.toNat < 128 := by
  simp only [isalnum, Bool.or_eq_true, Bool.and_eq_true, decide_eq_true_eq] at h
  omega

/-- `USERNAME_REGEX` finds a match exactly when some rune is not alphanumeric. -/
theorem USERNAME_REGEX_no_match (s : String) :
    USERNAME_REGEX.MatchString s = false ↔ ∀ c ∈ s.toList, isalnum c = true := by
  rw [← Bool.not_eq_true, USERNAME_REGEX_eq, MatchString_cls]
  simp only [mem_username_class, not_exists, not_and, Bool.not_eq_false]

/-- C13: `validateUsername` holds exactly for the texts of 5 to 25 characters
all of which are letters a-z, A-Z or digits 0-9; the byte count gives the same
answer as the character count, and a text with a non-ASCII character is
rejected. -/
theorem validateUsername_iff (s : String) :
    (validateUsername s = true ↔
      (5 ≤ s.length ∧ s.length ≤ 25) ∧ ∀ c ∈ s.toList, isalnum c = true) ∧
    (validateUsername s = true ↔
      (5 ≤ s.utf8ByteSize ∧ s.utf8ByteSize ≤ 25) ∧ ∀ c ∈ s.toList, isalnum c = true) ∧
    ((∃ c ∈ s.toList, 128 ≤ c.toNat) → validateUsername s = false) := by
  have hB : validateUsername s = true ↔
      (5 ≤ s.utf8ByteSize ∧ s.utf8ByteSize ≤ 25) ∧ ∀ c ∈ s.toList, isalnum c = true := by
    rw [← USERNAME_REGEX_no_match]
    unfold validateUsername
    cases USERNAME_REGEX.MatchString s <;> simp
  have hL : validateUsername s = true ↔
      (5 ≤ s.length ∧ s.length ≤ 25) ∧ ∀ c ∈ s.toList, isalnum c = true := by
    rw [hB]
    constructor
    · rintro ⟨hlen, hall⟩
      rw [utf8ByteSize_of_ascii s fun c hc => isalnum_is_ascii c (hall c hc)] at hlen
      exact ⟨hlen, hall⟩
    · rintro ⟨hlen, hall⟩
      rw [utf8ByteSize_of_ascii s fun c hc => isalnum_is_ascii c (hall c hc)]
      exact ⟨hlen, hall⟩
  refine ⟨hL, hB, ?_⟩
  rintro ⟨c, hc, h128⟩
  rw [← Bool.not_eq_true, hB]
  rintro ⟨_, hall⟩
  have := isalnum_is_ascii c (hall c hc)
  omega

namespace Regex

theorem mem_lang_opt (r : Regex) (w : List Char) : w ∈ (opt r).lang ↔ w ∈ r.lang ∨ w = [] := by
  show w ∈ r.lang + (1 : Language Char) ↔ _
  rw [Language.mem_add, Language.mem_one]

theorem mem_lang_cat (a b : Regex) (w : List Char) :
    w ∈ (cat a b).lang ↔ ∃ x y, w = x ++ y ∧ x ∈ a.lang ∧ y ∈ b.lang := by
  show w ∈ a.lang * b.lang ↔ _
  rw [Language.mem_mul]
  constructor
  · rintro ⟨x, hx, y, hy, rfl⟩
    exact ⟨x, y, rfl, hx, hy⟩
  · rintro ⟨x, y, rfl, hx, hy⟩
    exact ⟨x, hx, y, hy, rfl⟩

/-- A class followed by an expression: the first rune is of the class. -/
theorem mem_lang_cls_cat (k : CharClass) (r : Regex) (w : List Char) :
    w ∈ (cat (cls k) r).lang ↔ ∃ c y, w = c :: y ∧ k.mem c = true ∧ y ∈ r.lang := by
  rw [mem_lang_cat]
  constructor
  · rintro ⟨x, y, rfl, ⟨c, rfl, hc⟩, hy⟩
    exact ⟨c, y, rfl, hc, hy⟩
  · rintro ⟨c, y, rfl, hc, hy⟩
    exact ⟨[c], y, rfl, ⟨c, rfl, hc⟩, hy⟩

/-- A literal rune followed by an expression. -/
theorem mem_lang_char_cat (a : Char) (r : Regex) (w : List Char) :
    w ∈ (cat (char a) r).lang ↔ ∃ y, w = a :: y ∧ y ∈ r.lang := by
  rw [mem_lang_cat]
  constructor
  · rintro ⟨x, y, rfl, hx, hy⟩
    rw [(mem_lang_char a x).mp hx]
    exact ⟨y, rfl, hy⟩
  · rintro ⟨y, rfl, hy⟩
    exact ⟨[a], y, rfl, (mem_lang_char a _).mpr rfl, hy⟩

/-- The quantifier `{n}` on a class: exactly `n` runes of the class. -/
theorem mem_lang_rep_cls (k : CharClass) (n : Nat) (w : List Char) :
    w ∈ (rep n (cls k)).lang ↔ w.length = n ∧ ∀ c ∈ w, k.mem c = true := by
  induction n generalizing w with
  | zero =>
    show w ∈ (1 : Language Char) ↔ _
    rw [Language.mem_one]
    constructor
    · rintro rfl
      simp
    · rintro ⟨h, _⟩
      exact List.length_eq_zero.mp h
  | succ n ih =>
    show w ∈ (cat (cls k) (rep n (cls k))).lang ↔ _
    rw [mem_lang_cls_cat]
    constructor
    · rintro ⟨c, y, rfl, hc, hy⟩
      obtain ⟨hlen, hall⟩ := (ih y).mp hy
      refine ⟨by simp [hlen], fun d hd => ?_⟩
      rcases List.mem_cons.mp hd with rfl | hd
      · exact hc
      · exact hall d hd
    · rintro ⟨hlen, hall⟩
      cases w with
      | nil => simp at hlen
      | cons c y =>
        exact ⟨c, y, rfl, hall c (List.mem_cons_self _ _),
          (ih y).mpr ⟨by simpa using hlen, fun d hd => hall d (List.mem_cons_of_mem _ hd)⟩⟩

/-- At most `n` runes of a class. -/
theorem mem_lang_upTo_cls (k : CharClass) (n : Nat) (w : List Char) :
    w ∈ (upTo n (cls k)).lang ↔ w.length ≤ n ∧ ∀ c ∈ w, k.mem c = true := by
  induction n generalizing w with
  | zero =>
    show w ∈ (1 : Language Char) ↔ _
    rw [Language.mem_one]
    constructor
    · rintro rfl
      simp
    · rintro ⟨h, _⟩
      exact List.length_eq_zero.mp (Nat.le_zero.mp h)
  | succ n ih =>
    show w ∈ (opt (cat (cls k) (upTo n (cls k)))).lang ↔ _
    rw [mem_lang_opt, mem_lang_cls_cat]
    constructor
    · rintro (⟨c, y, rfl, hc, hy⟩ | rfl)
      · obtain ⟨hlen, hall⟩ := (ih y).mp hy
        refine ⟨by simpa using hlen, fun d hd => ?_⟩
        rcases List.mem_cons.mp hd with rfl | hd
        · exact hc
        · exact hall d hd
      · simp
    · rintro ⟨hlen, hall⟩
      cases w with
      | nil => exact Or.inr rfl
      | cons c y =>
        exact Or.inl ⟨c, y, rfl, hall c (List.mem_cons_self _ _),
          (ih y).mpr ⟨by simpa using hlen, fun d hd => hall d (List.mem_cons_of_mem _ hd)⟩⟩

/-- The quantifier `{lo,hi}` on a class: between `lo` and `hi` runes of the class. -/
theorem mem_lang_repRange_cls (k : CharClass) (lo hi : Nat) (hle : lo ≤ hi) (w : List Char) :
    w ∈ (repRange lo hi (cls k)).lang ↔
      (lo ≤ w.length ∧ w.length ≤ hi) ∧ ∀ c ∈ w, k.mem c = true := by
  show w ∈ (cat (rep lo (cls k)) (upTo (hi - lo) (cls k))).lang ↔ _
  rw [mem_lang_cat]
  constructor
  · rintro ⟨x, y, rfl, hx, hy⟩
    obtain ⟨hxl, hxa⟩ := (mem_lang_rep_cls k lo x).mp hx
    obtain ⟨hyl, hya⟩ := (mem_lang_upTo_cls k (hi - lo) y).mp hy
    refine ⟨by simp only [List.length_append]; omega, fun c hc => ?_⟩
    rcases List.mem_append.mp hc with h | h
    · exact hxa c h
    · exact hya c h
  · rintro ⟨⟨h1, h2⟩, hall⟩
    refine ⟨w.take lo, w.drop lo, (List.take_append_drop lo w).symm, ?_, ?_⟩
    · exact (mem_lang_rep_cls k lo _).mpr
        ⟨by simp [h1], fun c hc => hall c (List.mem_of_mem_take hc)⟩
    · exact (mem_lang_upTo_cls k (hi - lo) _).mpr
        ⟨by simp only [List.length_drop]; omega, fun c hc => hall c (List.mem_of_mem_drop hc)⟩

end Regex

theorem perl_d_mem (c : Char) : perl_d.mem c = inRange ('0', '9') c := by
  simp [perl_d, CharClass.mem]

/-- The class `\s` holds exactly the five whitespace characters. -/
theorem perl_s_mem (c : Char) : perl_s.mem c = true ↔ c ∈ perlWhitespace := by
  have h1 : ('\t' : Char).toNat = 9 := rfl
  have h2 : ('\n' : Char).toNat = 10 := rfl
  have h3 : ('\x0c' : Char).toNat = 12 := rfl
  have h4 : ('\r' : Char).toNat = 13 := rfl
  have h5 : (' ' : Char).toNat = 32 := rfl
  simp only [perl_s, CharClass.mem, List.any_cons, List.any_nil, Bool.or_false, inRange, h1, h2,
    h3, h4, h5, Bool.false_bne, Bool.or_eq_true, Bool.and_eq_true, decide_eq_true_eq,
    perlWhitespace, List.mem_cons, List.not_mem_nil, or_false]
  constructor
  · intro h
    rcases (by omega : c.toNat = 9 ∨ c.toNat = 10 ∨ c.toNat = 12 ∨ c.toNat = 13 ∨
        c.toNat = 32) with h | h | h | h | h
    · exact Or.inl (Char.ext (UInt32.ext h))
    · exact Or.inr (Or.inl (Char.ext (UInt32.ext h)))
    · exact Or.inr (Or.inr (Or.inl (Char.ext (UInt32.ext h))))
    · exact Or.inr (Or.inr (Or.inr (Or.inl (Char.ext (UInt32.ext h)))))
    · exact Or.inr (Or.inr (Or.inr (Or.inr (Char.ext (UInt32.ext h)))))
  · rintro (rfl | rfl | rfl | rfl | rfl) <;> decide

/-- C12 (as amended): `validateTelephone` holds exactly for the texts made of an
opening parenthesis, three digits, a closing parenthesis, one space, three
digits, a hyphen, four digits, optionally followed by an extension made of an
optional single whitespace character (tab, newline, form feed, carriage return
or space), the letter `x` and one to five digits, with nothing before or
after. -/
theorem validateTelephone_iff (s : String) :
    validateTelephone s = true ↔ TelephoneForm perlWhitespace s.toList := by
  have hv : validateTelephone s = true ↔ US_PHONE_REGEX.MatchString s = true := by
    unfold validateTelephone
    cases US_PHONE_REGEX.MatchString s <;> simp
  rw [hv]
  unfold US_PHONE_REGEX
  rw [MatchString_anchored]
  constructor
  · intro h
    obtain ⟨y1, hs, h1⟩ := (Regex.mem_lang_char_cat _ _ _).mp h
    obtain ⟨area, y2, hy1, harea, h2⟩ := (Regex.mem_lang_cat _ _ _).mp h1
    obtain ⟨y3, hy2, h3⟩ := (Regex.mem_lang_char_cat _ _ _).mp h2
    obtain ⟨y4, hy3, h4⟩ := (Regex.mem_lang_char_cat _ _ _).mp h3
    obtain ⟨exch, y5, hy4, hexch, h5⟩ := (Regex.mem_lang_cat _ _ _).mp h4
    obtain ⟨y6, hy5, h6⟩ := (Regex.mem_lang_char_cat _ _ _).mp h5
    obtain ⟨line, ext, hy6, hline, hext⟩ := (Regex.mem_lang_cat _ _ _).mp h6
    rw [hy1, hy2, hy3, hy4, hy5, hy6] at hs
    rw [Regex.mem_lang_rep_cls] at harea hexch hline
    simp only [perl_d_mem] at harea hexch hline
    refine ⟨area, exch, line, ext, hs, harea, hexch, hline, ?_⟩
    rcases (Regex.mem_lang_opt _ _).mp hext with hx | hx
    · obtain ⟨sp, r, rfl, hsp, hr⟩ := (Regex.mem_lang_cat _ _ _).mp hx
      obtain ⟨digits, rfl, hd⟩ := (Regex.mem_lang_char_cat _ _ _).mp hr
      rw [Regex.mem_lang_repRange_cls _ _ _ (by decide)] at hd
      simp only [perl_d_mem] at hd
      refine Or.inr ⟨sp, digits, rfl, ?_, hd.1, hd.2⟩
      rcases (Regex.mem_lang_opt _ _).mp hsp with hw | hw
      · obtain ⟨w, hsw, hmem⟩ := (Regex.mem_lang_cls _ _).mp hw
        exact Or.inr ⟨w, (perl_s_mem w).mp hmem, hsw⟩
      · exact Or.inl hw
    · exact Or.inl hx
  · rintro ⟨area, exch, line, ext, hs, harea, hexch, hline, hext⟩
    rw [hs]
    refine (Regex.mem_lang_char_cat _ _ _).mpr ⟨_, rfl, ?_⟩
    refine (Regex.mem_lang_cat _ _ _).mpr ⟨area, _, rfl, ?_, ?_⟩
    · rw [Regex.mem_lang_rep_cls]
      simpa only [perl_d_mem] using harea
    refine (Regex.mem_lang_char_cat _ _ _).mpr ⟨_, rfl, ?_⟩
    refine (Regex.mem_lang_char_cat _ _ _).mpr ⟨_, rfl, ?_⟩
    refine (Regex.mem_lang_cat _ _ _).mpr ⟨exch, _, rfl, ?_, ?_⟩
    · rw [Regex.mem_lang_rep_cls]
      simpa only [perl_d_mem] using hexch
    refine (Regex.mem_lang_char_cat _ _ _).mpr ⟨_, rfl, ?_⟩
    refine (Regex.mem_lang_cat _ _ _).mpr ⟨line, ext, rfl, ?_, ?_⟩
    · rw [Regex.mem_lang_rep_cls]
      simpa only [perl_d_mem] using hline
    rw [Regex.mem_lang_opt]
    rcases hext with rfl | ⟨sp, digits, rfl, hsp, hlen, hdig⟩
    · exact Or.inr rfl
    · refine Or.inl ((Regex.mem_lang_cat _ _ _).mpr ⟨sp, _, rfl, ?_, ?_⟩)
      · rw [Regex.mem_lang_opt]
        rcases hsp with rfl | ⟨w, hw, rfl⟩
        · exact Or.inr rfl
        · exact Or.inl ((Regex.mem_lang_cls _ _).mpr ⟨w, rfl, (perl_s_mem w).mpr hw⟩)
      · refine (Regex.mem_lang_char_cat _ _ _).mpr ⟨digits, rfl, ?_⟩
        rw [Regex.mem_lang_repRange_cls _ _ _ (by decide)]
        simp only [perl_d_mem]
        exact ⟨hlen, hdig⟩

/-- C12 (as stated) fails: a tab between the number and the `x` is accepted,
although the text is not of the form that allows only a space there. -/
theorem validateTelephone_accepts_tab :
    validateTelephone "(555) 555-5555\tx123" = true ∧
    ¬ TelephoneForm [' '] "(555) 555-5555\tx123".toList := by
  refine ⟨by decide, ?_⟩
  rintro ⟨area, exch, line, ext, hs, ⟨ha, -⟩, ⟨he, -⟩, ⟨hl, -⟩, hext⟩
  obtain ⟨a1, a2, a3, rfl⟩ := List.length_eq_three.mp ha
  obtain ⟨e1, e2, e3, rfl⟩ := List.length_eq_three.mp he
  rcases line with _ | ⟨l1, _ | ⟨l2, _ | ⟨l3, _ | ⟨l4, _ | ⟨l5, line⟩⟩⟩⟩⟩ <;>
    simp at hl
  have hlit : "(555) 555-5555\tx123".toList =
      ['(', '5', '5', '5', ')', ' ', '5', '5', '5', '-', '5', '5', '5', '5', '\t', 'x', '1', '2',
        '3'] := rfl
  rw [hlit] at hs
  simp only [List.cons_append, List.nil_append, List.cons.injEq, true_and] at hs
  obtain ⟨-, -, -, -, -, -, -, -, -, -, hext_eq⟩ := hs
  subst hext_eq
  rcases hext with h | ⟨sp, digits, h, hsp, -, -⟩
  · simp at h
  · rcases hsp with rfl | ⟨w, hw, rfl⟩
    · simp at h
    · simp only [List.mem_singleton] at hw
      subst hw
      simp at h

/-! ### Reading one user -/

/-- What `GetUsers` returns for the field `id` when the store answers the query
with no rows: no users and a nil error. -/
theorem GetUsers_id_no_rows (db : PostGresDB) (idVal : String)
    (hq : db.Query (buildSelect "id" idVal 1 0).1 (buildSelect "id" idVal 1 0).2 = Except.ok []) :
    GetUsers db "id" idVal 1 0 =
      ⟨[], none, [⟨(buildSelect "id" idVal 1 0).1, (buildSelect "id" idVal 1 0).2⟩]⟩ := by
  unfold GetUsers
  rw [if_neg (by decide)]
  simp only [hq, scanRows]

/-- For every route id that passes `strconv.Atoi` and every store that answers
the query with no rows and no error, `GetUserById` ends in the index panic. -/
theorem GetUserById_no_rows (db : PostGresDB) (idVal : String) (hid : Atoi idVal ≠ none)
    (hq : db.Query (buildSelect "id" idVal 1 0).1 (buildSelect "id" idVal 1 0).2 = Except.ok []) :
    GetUserById db idVal =
      HandlerResult.panic "runtime error: index out of range [0] with length 0" := by
  unfold GetUserById
  rcases hA : Atoi idVal with _ | n
  · exact absurd hA hid
  · simp only [GetUsers_id_no_rows db idVal hq]

/-- C11 (the code at one input): for the id `42` and a store that answers the
query with zero rows and no error, `GetUsers` returns no users and a nil error,
and `GetUserById` then takes `users[0]` of the empty result and ends in the
index panic instead of a not-found response. -/
theorem GetUserById_read_miss_panics :
    Atoi "42" = some 42 ∧
    (GetUsers (sampleStore (Except.ok 1)) "id" "42" 1 0).users = [] ∧
    (GetUsers (sampleStore (Except.ok 1)) "id" "42" 1 0).err = none ∧
    GetUserById (sampleStore (Except.ok 1)) "42" =
      HandlerResult.panic "runtime error: index out of range [0] with length 0" := by
  refine ⟨by decide, ?_, ?_, ?_⟩
  · rw [GetUsers_id_no_rows _ _ rfl]
  · rw [GetUsers_id_no_rows _ _ rfl]
  · exact GetUserById_no_rows _ _ (by decide) rfl

end UserService
